import Mathlib

/-!
Verification development for the Kickstarter creator-outreach pipeline's
storage layer (Supabase SQL: bulk upsert functions, tables, views).

The PL/pgSQL bulk functions, table constraints, generated columns, the
domain-blocklist upsert and the client-facing view are shallowly embedded
as executable Lean functions over explicit table states.  JSONB payloads
are modelled by the inductive type Jval; SQL NULL is modelled with Option;
text casts that can raise in PostgreSQL return Except.  Timestamps are
treated as opaque strings (their text is never inspected by the modelled
code) and the current time is passed explicitly as a parameter wherever
CURRENT_TIMESTAMP or an updated_at trigger appears in the source.
-/

namespace Kickstarter

/-- JSONB values, as stored in payloads handed to the bulk RPC functions.
Objects are association lists assumed duplicate-key free (jsonb
normalizes duplicates away). -/
inductive Jval where
  | null
  | str (s : String)
  | bool (b : Bool)
  | num (n : Int)
  | arr (xs : List Jval)
  | obj (kvs : List (String × Jval))

/-- Textual rendering of a jsonb value (used by the ->> operator and
jsonb_array_elements_text when the value is not a scalar). -/
def Jval.render : Jval → String
  | .null => "null"
  | .str s => "\"" ++ s ++ "\""
  | .bool b => if b then "true" else "false"
  | .num n => toString n
  | .arr xs => "[" ++ String.intercalate "," (xs.attach.map (fun v => v.1.render)) ++ "]"
  | .obj kvs => "\x7b" ++
      String.intercalate "," (kvs.attach.map (fun kv => "\"" ++ kv.1.1 ++ "\":" ++ kv.1.2.render)) ++ "\x7d"
decreasing_by
  · have := List.sizeOf_lt_of_mem v.2; simp_all; omega
  · have := List.sizeOf_lt_of_mem kv.2
    have h2 : sizeOf kv.1.2 < sizeOf kv.1 := by cases kv.1; simp
    simp_all; omega

/-- The jsonb -> operator on an object: SQL NULL when the key is absent or
the left side is not an object; note a stored JSON null is returned as a
value (Jval.null), not as SQL NULL. -/
def jGet (j : Jval) (k : String) : Option Jval :=
  match j with
  | .obj kvs => (kvs.find? (fun kv => kv.1 == k)).map (fun kv => kv.2)
  | _ => none

/-- Text of a single jsonb value as produced by ->> and by
jsonb_array_elements_text: JSON null becomes SQL NULL, scalars lose their
quoting, arrays and objects keep their JSON text. -/
def jvalText : Jval → Option String
  | .null => none
  | .str s => some s
  | .bool b => some (if b then "true" else "false")
  | .num n => some (toString n)
  | v => some v.render

/-- The jsonb ->> operator: text of the member, SQL NULL when absent. -/
def jGetText (j : Jval) (k : String) : Option String :=
  (jGet j k).bind jvalText

/-- SQL COALESCE on two nullable values. -/
def coalesce (a b : Option α) : Option α :=
  match a with
  | some x => some x
  | none => b

/-- NULLIF(x, ''): empty text becomes SQL NULL. -/
def nullifEmpty (a : Option String) : Option String :=
  match a with
  | some "" => none
  | x => x

/-- PostgreSQL trim(): strips space characters from both ends. -/
def sqlTrim (s : String) : String :=
  String.mk (((s.toList.dropWhile (fun c => c == ' ')).reverse.dropWhile
    (fun c => c == ' ')).reverse)

/-- Whitespace as skipped around numeric and boolean literals. -/
def isSpaceChar (c : Char) : Bool :=
  c == ' ' || c == '\t' || c == '\n' || c == '\r'

/-- Whitespace trimming around literals being cast. -/
def wsTrim (s : String) : String :=
  String.mk (((s.toList.dropWhile isSpaceChar).reverse.dropWhile isSpaceChar).reverse)

/-- lower() on a string. -/
def lowerStr (s : String) : String :=
  String.mk (s.toList.map Char.toLower)

/-- Value of an all-digit character list (none when empty or non-digit). -/
def digitsVal : List Char → Option Nat
  | [] => none
  | cs =>
    if cs.all (fun c => c.isDigit) then
      some (cs.foldl (fun acc c => acc * 10 + (c.toNat - '0'.toNat)) 0)
    else none

/-- PostgreSQL integer-literal parsing: optional sign, digits, surrounding
whitespace allowed. -/
def pgParseInt (s : String) : Option Int :=
  match (wsTrim s).toList with
  | '+' :: rest => (digitsVal rest).map Int.ofNat
  | '-' :: rest => (digitsVal rest).map (fun n => -(Int.ofNat n))
  | cs => (digitsVal cs).map Int.ofNat

deriving instance DecidableEq for Except

/-- Cast of a nullable text to BIGINT / INTEGER: NULL passes through,
unparsable text raises. -/
def castIntPg (o : Option String) : Except String (Option Int) :=
  match o with
  | none => .ok none
  | some s =>
    match pgParseInt s with
    | some n => .ok (some n)
    | none => .error ("invalid input syntax for type bigint: " ++ s)

/-- PostgreSQL boolean-literal parsing: unique prefixes of true/false or
yes/no, on/off, 1/0, case-insensitive, trimmed. -/
def pgParseBool (s : String) : Option Bool :=
  let t := lowerStr (wsTrim s)
  if t ∈ ["t", "tr", "tru", "true", "y", "ye", "yes", "on", "1"] then some true
  else if t ∈ ["f", "fa", "fal", "fals", "false", "n", "no", "of", "off", "0"] then
    some false
  else none

/-- Cast of a nullable text to BOOLEAN. -/
def castBoolPg (o : Option String) : Except String (Option Bool) :=
  match o with
  | none => .ok none
  | some s =>
    match pgParseBool s with
    | some b => .ok (some b)
    | none => .error ("invalid input syntax for type boolean: " ++ s)

/-- Numeric-literal syntax check: optional sign, digits with at most one
decimal point, at least one digit. -/
def pgNumericOk (s : String) : Bool :=
  let t := wsTrim s
  let body := match t.toList with
    | '+' :: rest => rest
    | '-' :: rest => rest
    | cs => cs
  body.any (fun c => c.isDigit) &&
    body.all (fun c => c.isDigit || c == '.') &&
    (body.filter (fun c => c == '.')).length ≤ 1

/-- Cast of a nullable text to NUMERIC; the numeric value itself is kept
as its (trimmed) text, which the modelled code never computes with. -/
def castNumericPg (o : Option String) : Except String (Option String) :=
  match o with
  | none => .ok none
  | some s =>
    if pgNumericOk s then .ok (some (wsTrim s))
    else .error ("invalid input syntax for type numeric: " ++ s)

/-- Cast of a nullable text to TIMESTAMP WITH TIME ZONE.  Timestamps are
opaque in this model: the cast is modelled as always succeeding and the
text is stored verbatim (no claim depends on timestamp parsing errors). -/
def castTimestampPg (o : Option String) : Option String := o

/-- SQL <> on two nullable texts, in the only position the source uses it
(IF conditions, where NULL collapses to false): true exactly when both
sides are non-null and different. -/
def sqlTextNe (a b : Option String) : Bool :=
  match a, b with
  | some x, some y => x != y
  | _, _ => false

/-- Replace the first element satisfying p (used for single-row UPDATEs on
a primary-key match). -/
def listUpdate (p : α → Bool) (new : α) : List α → List α
  | [] => []
  | x :: xs => if p x then new :: xs else x :: listUpdate p new xs

/-! ## Table rows (src/supabase/tables/creators.sql, src/unnamed/part_004,
src/supabase/tables/creator_outreach.sql)

Columns with a non-null default that the modelled operations always write
with a non-null value (the COALESCE(..., default) columns) are modelled as
plain values; genuinely nullable columns are Option.  Columns never read
or written by any modelled operation (denormalized URL columns, priority,
follow_up_date, contact_method, and the projects columns outside the
upsert's column list, which keep their CREATE TABLE defaults) are omitted
from the row structures. -/

/-- A row of the creators table. -/
structure CreatorRow where
  id : Int
  slug : Option String
  name : String
  is_registered : Option Bool
  is_email_verified : Option Bool
  chosen_currency : Option String
  is_superbacker : Option Bool
  has_admin_message_badge : Bool
  ppo_has_action : Bool
  backing_action_count : Int
  avatar : Option Jval
  urls : Option Jval
  websites : Jval
  data_hash : Option String
  created_at : String
  updated_at : String

/-- A row of the projects table (the columns written by
upsert_projects_bulk; NUMERIC values are kept as their literal text). -/
structure ProjectRow where
  id : Int
  creator_id : Int
  name : String
  blurb : Option String
  slug : String
  state : String
  country : String
  country_displayable_name : Option String
  currency : String
  goal : String
  pledged : Option String
  backers_count : Option Int
  state_changed_at : Option String
  created_at_ks : String
  launched_at : Option String
  deadline : Option String
  photo : Option Jval
  category : Option Jval
  location : Option Jval
  profile : Option Jval
  urls : Option Jval
  data_hash : Option String
  created_at : String
  updated_at : String

/-- A row of the creator_outreach table.  has_any_contact is the stored
GENERATED ALWAYS column (email IS NOT NULL) OR COALESCE(has_contact_form,
false), recomputed at every write. -/
structure OutreachRow where
  creator_id : Int
  outreach_status : String
  has_instagram : Bool
  has_facebook : Bool
  has_twitter : Bool
  has_youtube : Bool
  has_tiktok : Bool
  has_linkedin : Bool
  has_patreon : Bool
  has_discord : Bool
  has_twitch : Bool
  has_bluesky : Bool
  has_other_website : Bool
  has_any_contact : Bool
  email : Option String
  email_source_url : Option String
  has_contact_form : Option Bool
  contact_form_url : Option String
  last_contact_check_at : Option String
  contact_status : Option String
  contact_error : Option String
  contact_attempts : Option Int
  site_hash : Option String
  first_contacted_at : Option String
  last_contacted_at : Option String
  response_received_at : Option String
  notes : Option String
  tags : List (Option String)
  created_at : String
  updated_at : String
  deriving DecidableEq

/-- The generated column's defining expression. -/
def hasAnyContactOf (email : Option String) (hcf : Option Bool) : Bool :=
  email.isSome || hcf.getD false

/-- The database state the three bulk RPC functions operate on. -/
structure Db where
  creators : List CreatorRow
  projects : List ProjectRow
  outreach : List OutreachRow

def findCreator (db : Db) (i : Int) : Option CreatorRow :=
  db.creators.find? (fun r => r.id == i)

def findProject (db : Db) (i : Int) : Option ProjectRow :=
  db.projects.find? (fun r => r.id == i)

def findOutreach (db : Db) (i : Int) : Option OutreachRow :=
  db.outreach.find? (fun r => r.creator_id == i)

/-! ## The bulk RPC loop (src/supabase/functions/bulk_upsert.sql)

All three functions share the same loop shape: iterate over
jsonb_array_elements of the payload, process each element inside its own
BEGIN/EXCEPTION block (so a failure rolls back only that element's write
and is appended to the error list), and count inserts/updates.  The loop
is embedded as a fold over a per-entity step function returning Except. -/

/-- One entry of the returned errors jsonb array:
jsonb_build_object(idKey, payload ->> id, 'error', SQLERRM). -/
structure ErrEntry where
  idKey : String
  entityId : Option String
  message : String
  deriving DecidableEq

/-- What one entity's guarded block did. -/
inductive WriteKind where
  | inserted
  | updated
  | skipped
  deriving DecidableEq

/-- The RETURNS TABLE row (inserted_count, updated_count, total_count,
errors). -/
structure BulkResult where
  inserted_count : Nat
  updated_count : Nat
  total_count : Nat
  errors : List ErrEntry
  deriving DecidableEq

/-- Effect of one loop iteration on the accumulated result. -/
def BulkResult.afterOk (r : BulkResult) (k : WriteKind) : BulkResult :=
  { r with
    total_count := r.total_count + 1
    inserted_count := r.inserted_count + (if k = .inserted then 1 else 0)
    updated_count := r.updated_count + (if k = .updated then 1 else 0) }

def BulkResult.afterErr (r : BulkResult) (e : ErrEntry) : BulkResult :=
  { r with total_count := r.total_count + 1, errors := e :: r.errors }

/-- The FOR ... LOOP with per-element BEGIN/EXCEPTION: a failing element
leaves the state untouched and contributes an error entry; a succeeding
element's write takes effect before the next element runs. -/
def runBulk (step : Db → Jval → Except ErrEntry (Db × WriteKind)) :
    Db → List Jval → Db × BulkResult
  | db, [] => (db, ⟨0, 0, 0, []⟩)
  | db, j :: rest =>
    match step db j with
    | .ok (db', k) =>
      ((runBulk step db' rest).1, (runBulk step db' rest).2.afterOk k)
    | .error e =>
      ((runBulk step db rest).1, (runBulk step db rest).2.afterErr e)

/-! ### upsert_creators_bulk (bulk_upsert.sql lines 10-109) -/

/-- The ON CONFLICT (id) DO UPDATE SET clause of upsert_creators_bulk;
the set_creators_updated_at trigger refreshes updated_at. -/
def creatorConflictUpdate (old excl : CreatorRow) (now : String) : CreatorRow :=
  { old with
    slug := excl.slug
    name := excl.name
    is_registered := excl.is_registered
    is_email_verified := excl.is_email_verified
    chosen_currency := excl.chosen_currency
    is_superbacker := excl.is_superbacker
    has_admin_message_badge := excl.has_admin_message_badge
    ppo_has_action := excl.ppo_has_action
    backing_action_count := excl.backing_action_count
    avatar := excl.avatar
    urls := excl.urls
    websites := excl.websites
    data_hash := excl.data_hash
    updated_at := now }

/-- One creator's guarded block, given the already-cast id and the looked
up existing row (the only way the block reads the database).  Returns
none when the hash guard skips the write, otherwise the row to write. -/
def stepCreatorCore (now : String) (j : Jval) (idOpt : Option Int)
    (found : Option CreatorRow) : Except String (Option (CreatorRow × WriteKind)) := do
  let v_data_hash := jGetText j "data_hash"
  let v_exists := found.isSome
  let v_existing_hash := found.bind (fun r => r.data_hash)
  -- IF NOT v_exists OR v_existing_hash IS NULL OR v_existing_hash != v_data_hash
  if !v_exists || v_existing_hash.isNone || sqlTextNe v_existing_hash v_data_hash then
    -- INSERT ... VALUES casts, in column order
    let is_registered ← castBoolPg (jGetText j "is_registered")
    let is_email_verified ← castBoolPg (jGetText j "is_email_verified")
    let is_superbacker ← castBoolPg (jGetText j "is_superbacker")
    let hamb ← castBoolPg (jGetText j "has_admin_message_badge")
    let ppo ← castBoolPg (jGetText j "ppo_has_action")
    let bac ← castIntPg (jGetText j "backing_action_count")
    -- NOT NULL constraints of the creators table: id, name
    match idOpt with
    | none => throw "null value in column id of creators violates not-null constraint"
    | some i =>
      match jGetText j "name" with
      | none => throw "null value in column name of creators violates not-null constraint"
      | some nm =>
        let excluded : CreatorRow :=
          { id := i
            slug := jGetText j "slug"
            name := nm
            is_registered := is_registered
            is_email_verified := is_email_verified
            chosen_currency := jGetText j "chosen_currency"
            is_superbacker := is_superbacker
            has_admin_message_badge := hamb.getD false
            ppo_has_action := ppo.getD false
            backing_action_count := bac.getD 0
            avatar := jGet j "avatar"
            urls := jGet j "urls"
            websites := (jGet j "websites").getD (Jval.arr [])
            data_hash := v_data_hash
            created_at := now
            updated_at := now }
        match found with
        | some old => pure (some (creatorConflictUpdate old excluded now, .updated))
        | none => pure (some (excluded, .inserted))
  else
    pure none

/-- One iteration of the upsert_creators_bulk loop: the SELECT EXISTS
lookup (whose id cast can raise), the guarded insert/update, and the
EXCEPTION handler building the error entry. -/
def stepCreator (now : String) (db : Db) (j : Jval) :
    Except ErrEntry (Db × WriteKind) :=
  match castIntPg (jGetText j "id") with
  | .error e => .error ⟨"creator_id", jGetText j "id", e⟩
  | .ok idOpt =>
    match stepCreatorCore now j idOpt (idOpt.bind (findCreator db)) with
    | .error e => .error ⟨"creator_id", jGetText j "id", e⟩
    | .ok none => .ok (db, .skipped)
    | .ok (some (row, .updated)) =>
      .ok ({ db with creators := listUpdate (fun r => some r.id == idOpt) row db.creators },
           .updated)
    | .ok (some (row, _)) =>
      .ok ({ db with creators := db.creators ++ [row] }, .inserted)

/-- upsert_creators_bulk(creators_data): the jsonb array is given as its
element list; now stands for CURRENT_TIMESTAMP during the call. -/
def upsert_creators_bulk (now : String) (db : Db) (creators_data : List Jval) :
    Db × BulkResult :=
  runBulk (stepCreator now) db creators_data

/-! ### upsert_projects_bulk (bulk_upsert.sql lines 115-239) -/

/-- The ON CONFLICT (id) DO UPDATE SET clause of upsert_projects_bulk
(sets updated_at = CURRENT_TIMESTAMP explicitly). -/
def projectConflictUpdate (old excl : ProjectRow) (now : String) : ProjectRow :=
  { old with
    creator_id := excl.creator_id
    name := excl.name
    blurb := excl.blurb
    slug := excl.slug
    state := excl.state
    country := excl.country
    country_displayable_name := excl.country_displayable_name
    currency := excl.currency
    goal := excl.goal
    pledged := excl.pledged
    backers_count := excl.backers_count
    state_changed_at := excl.state_changed_at
    created_at_ks := excl.created_at_ks
    launched_at := excl.launched_at
    deadline := excl.deadline
    photo := excl.photo
    category := excl.category
    location := excl.location
    profile := excl.profile
    urls := excl.urls
    data_hash := excl.data_hash
    updated_at := now }

/-- One project's guarded block.  creatorOk tests existence in the
creators table for the fk_creator foreign key (checked on insert, and on
update only when the incoming creator_id differs from the stored one). -/
def stepProjectCore (now : String) (j : Jval) (idOpt : Option Int)
    (found : Option ProjectRow) (creatorOk : Int → Bool) :
    Except String (Option (ProjectRow × WriteKind)) := do
  let v_data_hash := jGetText j "data_hash"
  let v_exists := found.isSome
  let v_existing_hash := found.bind (fun r => r.data_hash)
  if !v_exists || v_existing_hash.isNone || sqlTextNe v_existing_hash v_data_hash then
    -- INSERT ... VALUES casts, in column order
    let creatorIdOpt ← castIntPg (jGetText j "creator_id")
    let goal ← castNumericPg (jGetText j "goal")
    let pledged ← castNumericPg (jGetText j "pledged")
    let backers ← castIntPg (jGetText j "backers_count")
    -- NOT NULL constraints of the projects table, in column order:
    -- id, slug, name, goal, currency, country, state, created_at_ks, creator_id
    match idOpt with
    | none => throw "null value in column id of projects violates not-null constraint"
    | some i =>
      match jGetText j "slug" with
      | none => throw "null value in column slug of projects violates not-null constraint"
      | some slugv =>
        match jGetText j "name" with
        | none => throw "null value in column name of projects violates not-null constraint"
        | some namev =>
          match goal with
          | none => throw "null value in column goal of projects violates not-null constraint"
          | some goalv =>
            match jGetText j "currency" with
            | none => throw "null value in column currency of projects violates not-null constraint"
            | some curv =>
              match jGetText j "country" with
              | none => throw "null value in column country of projects violates not-null constraint"
              | some countryv =>
                match jGetText j "state" with
                | none => throw "null value in column state of projects violates not-null constraint"
                | some statev =>
                  match castTimestampPg (jGetText j "created_at_ks") with
                  | none => throw "null value in column created_at_ks of projects violates not-null constraint"
                  | some cak =>
                    match creatorIdOpt with
                    | none => throw "null value in column creator_id of projects violates not-null constraint"
                    | some cid =>
                      let excluded : ProjectRow :=
                        { id := i
                          creator_id := cid
                          name := namev
                          blurb := jGetText j "blurb"
                          slug := slugv
                          state := statev
                          country := countryv
                          country_displayable_name := jGetText j "country_displayable_name"
                          currency := curv
                          goal := goalv
                          pledged := pledged
                          backers_count := backers
                          state_changed_at := castTimestampPg (nullifEmpty (jGetText j "state_changed_at"))
                          created_at_ks := cak
                          launched_at := castTimestampPg (nullifEmpty (jGetText j "launched_at"))
                          deadline := castTimestampPg (nullifEmpty (jGetText j "deadline"))
                          photo := jGet j "photo"
                          category := jGet j "category"
                          location := jGet j "location"
                          profile := jGet j "profile"
                          urls := jGet j "urls"
                          data_hash := v_data_hash
                          created_at := now
                          updated_at := now }
                      match found with
                      | some old =>
                        if cid != old.creator_id && !creatorOk cid then
                          throw "insert or update on table projects violates foreign key constraint fk_creator"
                        else
                          pure (some (projectConflictUpdate old excluded now, .updated))
                      | none =>
                        if creatorOk cid then pure (some (excluded, .inserted))
                        else throw "insert or update on table projects violates foreign key constraint fk_creator"
  else
    pure none

/-- One iteration of the upsert_projects_bulk loop. -/
def stepProject (now : String) (db : Db) (j : Jval) :
    Except ErrEntry (Db × WriteKind) :=
  match castIntPg (jGetText j "id") with
  | .error e => .error ⟨"project_id", jGetText j "id", e⟩
  | .ok idOpt =>
    match stepProjectCore now j idOpt (idOpt.bind (findProject db))
        (fun c => (findCreator db c).isSome) with
    | .error e => .error ⟨"project_id", jGetText j "id", e⟩
    | .ok none => .ok (db, .skipped)
    | .ok (some (row, .updated)) =>
      .ok ({ db with projects := listUpdate (fun r => some r.id == idOpt) row db.projects },
           .updated)
    | .ok (some (row, _)) =>
      .ok ({ db with projects := db.projects ++ [row] }, .inserted)

/-- upsert_projects_bulk(projects_data). -/
def upsert_projects_bulk (now : String) (db : Db) (projects_data : List Jval) :
    Db × BulkResult :=
  runBulk (stepProject now) db projects_data

/-! ### sync_creator_outreach_bulk (bulk_upsert.sql lines 245-379) -/

/-- The row proposed for insertion (the VALUES clause of
sync_creator_outreach_bulk): every COALESCE(..., default) column is
non-null here, which is what EXCLUDED refers to on conflict.  The
creator_id not-null check is performed by the caller (it is a constraint
check, not a cast), so the field is filled with 0 until then and
overwritten; the generated has_any_contact is computed from the proposed
email and has_contact_form. -/
def excludedOutreachRow (now : String) (j : Jval) : Except String OutreachRow := do
  let has_instagram ← castBoolPg (jGetText j "has_instagram")
  let has_facebook ← castBoolPg (jGetText j "has_facebook")
  let has_twitter ← castBoolPg (jGetText j "has_twitter")
  let has_youtube ← castBoolPg (jGetText j "has_youtube")
  let has_tiktok ← castBoolPg (jGetText j "has_tiktok")
  let has_linkedin ← castBoolPg (jGetText j "has_linkedin")
  let has_patreon ← castBoolPg (jGetText j "has_patreon")
  let has_discord ← castBoolPg (jGetText j "has_discord")
  let has_twitch ← castBoolPg (jGetText j "has_twitch")
  let has_bluesky ← castBoolPg (jGetText j "has_bluesky")
  let has_other_website ← castBoolPg (jGetText j "has_other_website")
  let email := jGetText j "email"
  let hcf ← castBoolPg (jGetText j "has_contact_form")
  let attempts ← castIntPg (jGetText j "contact_attempts")
  let hcfv : Option Bool := some (hcf.getD false)
  pure
    { creator_id := 0
      outreach_status := (jGetText j "outreach_status").getD "not_contacted"
      has_instagram := has_instagram.getD false
      has_facebook := has_facebook.getD false
      has_twitter := has_twitter.getD false
      has_youtube := has_youtube.getD false
      has_tiktok := has_tiktok.getD false
      has_linkedin := has_linkedin.getD false
      has_patreon := has_patreon.getD false
      has_discord := has_discord.getD false
      has_twitch := has_twitch.getD false
      has_bluesky := has_bluesky.getD false
      has_other_website := has_other_website.getD false
      has_any_contact := hasAnyContactOf email hcfv
      email := email
      email_source_url := jGetText j "email_source_url"
      has_contact_form := hcfv
      contact_form_url := jGetText j "contact_form_url"
      last_contact_check_at := castTimestampPg (nullifEmpty (jGetText j "last_contact_check_at"))
      contact_status := some ((jGetText j "contact_status").getD "not_checked")
      contact_error := jGetText j "contact_error"
      contact_attempts := some (attempts.getD 0)
      site_hash := jGetText j "site_hash"
      first_contacted_at := castTimestampPg (nullifEmpty (jGetText j "first_contacted_at"))
      last_contacted_at := castTimestampPg (nullifEmpty (jGetText j "last_contacted_at"))
      response_received_at := castTimestampPg (nullifEmpty (jGetText j "response_received_at"))
      notes := jGetText j "notes"
      tags :=
        match jGet j "tags" with
        | some (.arr xs) => xs.map jvalText
        | _ => []
      created_at := now
      updated_at := now }

/-- The ON CONFLICT (creator_id) DO UPDATE SET clause: auto flags are
overwritten, Firecrawl-discovered columns are COALESCE(EXCLUDED.x,
stored x), outreach_status is overwritten only while still
'not_contacted'; notes, tags and the contact timestamps are not in the
SET list and stay untouched.  The updated_at trigger fires and the
generated has_any_contact is recomputed from the merged row. -/
def outreachConflictUpdate (old excl : OutreachRow) (now : String) : OutreachRow :=
  let email := coalesce excl.email old.email
  let hcf := coalesce excl.has_contact_form old.has_contact_form
  { old with
    has_instagram := excl.has_instagram
    has_facebook := excl.has_facebook
    has_twitter := excl.has_twitter
    has_youtube := excl.has_youtube
    has_tiktok := excl.has_tiktok
    has_linkedin := excl.has_linkedin
    has_patreon := excl.has_patreon
    has_discord := excl.has_discord
    has_twitch := excl.has_twitch
    has_bluesky := excl.has_bluesky
    has_other_website := excl.has_other_website
    email := email
    email_source_url := coalesce excl.email_source_url old.email_source_url
    has_contact_form := hcf
    contact_form_url := coalesce excl.contact_form_url old.contact_form_url
    last_contact_check_at := coalesce excl.last_contact_check_at old.last_contact_check_at
    contact_status := coalesce excl.contact_status old.contact_status
    contact_error := coalesce excl.contact_error old.contact_error
    contact_attempts := coalesce excl.contact_attempts old.contact_attempts
    site_hash := coalesce excl.site_hash old.site_hash
    outreach_status :=
      if old.outreach_status = "not_contacted" then excl.outreach_status
      else old.outreach_status
    has_any_contact := hasAnyContactOf email hcf
    updated_at := now }

/-- One outreach record's guarded block: the proposed row is built (casts
can raise), then the creator_id not-null constraint, then insert with the
fk_creator_outreach foreign-key check, or the conflict merge. -/
def stepOutreachCore (now : String) (j : Jval) (idOpt : Option Int)
    (found : Option OutreachRow) (creatorOk : Int → Bool) :
    Except String (Option (OutreachRow × WriteKind)) := do
  let excl ← excludedOutreachRow now j
  match idOpt with
  | none => throw "null value in column creator_id of creator_outreach violates not-null constraint"
  | some cid =>
    match found with
    | some old => pure (some (outreachConflictUpdate old excl now, .updated))
    | none =>
      if creatorOk cid then pure (some ({ excl with creator_id := cid }, .inserted))
      else throw "insert or update on table creator_outreach violates foreign key constraint fk_creator_outreach"

/-- One iteration of the sync_creator_outreach_bulk loop: the SELECT
EXISTS lookup (whose creator_id cast can raise), the upsert, and the
EXCEPTION handler.  The insert/update counters follow v_exists, which is
exactly whether the row pre-existed. -/
def stepOutreach (now : String) (db : Db) (j : Jval) :
    Except ErrEntry (Db × WriteKind) :=
  match castIntPg (jGetText j "creator_id") with
  | .error e => .error ⟨"creator_id", jGetText j "creator_id", e⟩
  | .ok idOpt =>
    match stepOutreachCore now j idOpt (idOpt.bind (findOutreach db))
        (fun c => (findCreator db c).isSome) with
    | .error e => .error ⟨"creator_id", jGetText j "creator_id", e⟩
    | .ok none => .ok (db, .skipped)
    | .ok (some (row, .updated)) =>
      .ok ({ db with outreach := listUpdate (fun r => some r.creator_id == idOpt) row db.outreach },
           .updated)
    | .ok (some (row, _)) =>
      .ok ({ db with outreach := db.outreach ++ [row] }, .inserted)

/-- sync_creator_outreach_bulk(outreach_data). -/
def sync_creator_outreach_bulk (now : String) (db : Db) (outreach_data : List Jval) :
    Db × BulkResult :=
  runBulk (stepOutreach now) db outreach_data

/-! ### Domain blocklist (src/unnamed/part_005 table,
src/unnamed/part_002 function firecrawl_block_domain) -/

/-- A row of firecrawl_blocked_domains (domain is the primary key). -/
structure BlockedDomainRow where
  domain : String
  reason : Option String
  source : Option String
  notes : Option String
  created_at : String
  updated_at : String
  deriving DecidableEq

/-- The ON CONFLICT (domain) DO UPDATE SET clause of
firecrawl_block_domain: reason/source/notes are COALESCE(EXCLUDED.x,
stored x) and updated_at is refreshed. -/
def blockedMergeRow (old : BlockedDomainRow) (p_reason p_source p_notes : Option String)
    (now : String) : BlockedDomainRow :=
  { old with
    reason := coalesce p_reason old.reason
    source := coalesce p_source old.source
    notes := coalesce p_notes old.notes
    updated_at := now }

/-- firecrawl_block_domain(p_domain, p_reason, p_source, p_notes): skips
null or all-space domains, otherwise upserts under lower(p_domain); on
conflict reason/source/notes are COALESCE(EXCLUDED.x, stored x) and
updated_at is refreshed (both the explicit SET and the trigger).  The SQL
defaults (reason 'Not supported by Firecrawl', source 'firecrawl', notes
NULL) are applied at call sites.  now stands for CURRENT_TIMESTAMP. -/
def firecrawl_block_domain (t : List BlockedDomainRow)
    (p_domain p_reason p_source p_notes : Option String) (now : String) :
    List BlockedDomainRow :=
  match p_domain with
  | none => t
  | some d =>
    if (sqlTrim d).length = 0 then t
    else
      let key := lowerStr d
      match t.find? (fun r => r.domain == key) with
      | some old =>
        listUpdate (fun r => r.domain == key) (blockedMergeRow old p_reason p_source p_notes now) t
      | none =>
        t ++ [{ domain := key, reason := p_reason, source := p_source,
                notes := p_notes, created_at := now, updated_at := now }]

/-! ### pipeline_state (src/supabase/tables/pipeline_state.sql) -/

/-- A row of pipeline_state; the CHECK (id = 1) and PRIMARY KEY live in
the insert operation below. -/
structure PipelineStateRow where
  id : Int
  last_run_at : Option String
  last_project_created_at : Option String
  last_contact_check_at : Option String
  last_site_hash : Option String
  run_notes : Option String
  pipeline_version : Option String
  created_at : String
  updated_at : String
  deriving DecidableEq

/-- A plain INSERT into pipeline_state: rejected by CHECK (id = 1) for
any other id, and by the primary key when the id is already present. -/
def insertPipelineState (t : List PipelineStateRow) (row : PipelineStateRow) :
    Except String (List PipelineStateRow) :=
  if row.id ≠ 1 then
    .error "new row for relation pipeline_state violates check constraint"
  else if (t.find? (fun r => r.id == row.id)).isSome then
    .error "duplicate key value violates unique constraint pipeline_state_pkey"
  else
    .ok (t ++ [row])

/-- The default control row (all data columns at their NULL defaults). -/
def defaultPipelineRow (now : String) : PipelineStateRow :=
  { id := 1, last_run_at := none, last_project_created_at := none,
    last_contact_check_at := none, last_site_hash := none, run_notes := none,
    pipeline_version := none, created_at := now, updated_at := now }

/-- The setup statement: INSERT INTO pipeline_state (id) VALUES (1)
ON CONFLICT (id) DO NOTHING. -/
def setupPipelineState (t : List PipelineStateRow) (now : String) :
    List PipelineStateRow :=
  if (t.find? (fun r => r.id == 1)).isSome then t
  else t ++ [defaultPipelineRow now]

/-! ### Credential pool over firecrawl_accounts
(src/supabase/tables/firecrawl_accounts.sql) -/

/-- Account status as used by the pool (the table stores it as free
text with values active/exhausted). -/
inductive AccountStatus where
  | active
  | inUse
  | exhausted
  deriving DecidableEq

/-- A firecrawl_accounts row as the pool sees it. -/
structure PoolAccount where
  id : Int
  status : AccountStatus
  deriving DecidableEq

/-- Modelled from the spec: the repository holds only the
firecrawl_accounts table, not the Credential Pool client code; per spec
sections 4.2 and 5, acquire() is a single atomic compare-and-swap on the
row status (select one active row and claim it), so concurrent callers
are interleavings of these atomic steps.  Returns the acquired id, or
none for the PoolExhausted condition. -/
def poolAcquire (s : List PoolAccount) : Option Int × List PoolAccount :=
  match s.find? (fun a => a.status == .active) with
  | some a => (some a.id, listUpdate (fun b => b.id == a.id) { a with status := .inUse } s)
  | none => (none, s)

/-- Modelled from the spec: release hands a claimed credential back. -/
def poolRelease (i : Int) (s : List PoolAccount) : List PoolAccount :=
  s.map (fun a => if a.id == i && a.status == .inUse then { a with status := .active } else a)

/-- Modelled from the spec: reportExhausted(credential) marks the row
exhausted, making it unavailable to every later acquire() until a manual
reset (which is not an operation of the core). -/
def poolReportExhausted (i : Int) (s : List PoolAccount) : List PoolAccount :=
  s.map (fun a => if a.id == i then { a with status := .exhausted } else a)

/-- The pool operations workers may interleave. -/
inductive PoolOp where
  | acquire
  | release (i : Int)
  | reportExhausted (i : Int)

/-- Run an interleaving of pool operations, collecting the ids handed out
by successful acquire() calls. -/
def poolRun : List PoolOp → List PoolAccount → List Int × List PoolAccount
  | [], s => ([], s)
  | .acquire :: ops, s =>
    (match (poolAcquire s).1 with
     | some i => i :: (poolRun ops (poolAcquire s).2).1
     | none => (poolRun ops (poolAcquire s).2).1,
     (poolRun ops (poolAcquire s).2).2)
  | .release i :: ops, s => poolRun ops (poolRelease i s)
  | .reportExhausted i :: ops, s => poolRun ops (poolReportExhausted i s)

/-- Status of the account with a given id. -/
def poolStatusOf (s : List PoolAccount) (i : Int) : Option AccountStatus :=
  (s.find? (fun a => a.id == i)).map (fun a => a.status)

/-! ### customer_contacts_view

The repository carries two definitions of this view: the filtered one in
src/unnamed/part_001 (only completed checks with a contact signal) and
the unfiltered one in src/supabase/views/customer_contacts_view.sql
(every creator, LEFT JOINed).  Both are embedded; the aggregated project
and website columns are omitted (no claim concerns them). -/

/-- An output row of customer_contacts_view (the contact columns). -/
structure CustomerContactRow where
  creator_id : Int
  creator_name : String
  creator_slug : Option String
  email : String
  email_source_url : String
  contact_form_url : String
  has_contact_form : Bool
  deriving DecidableEq

/-- The WHERE clause of the part_001 view: co.contact_status =
'completed' and (co.email is not null and co.email <> '' or
coalesce(co.has_contact_form, false) = true). -/
def contactRowVisible (co : OutreachRow) : Bool :=
  co.contact_status == some "completed" &&
    ((match co.email with | some e => e != "" | none => false) ||
      co.has_contact_form.getD false)

/-- Projection shared by both view definitions: the contact columns are
coalesced to '' / false. -/
def contactProjection (c : CreatorRow) (co : Option OutreachRow) : CustomerContactRow :=
  { creator_id := c.id
    creator_name := c.name
    creator_slug := c.slug
    email := (co.bind (fun o => o.email)).getD ""
    email_source_url := (co.bind (fun o => o.email_source_url)).getD ""
    contact_form_url := (co.bind (fun o => o.contact_form_url)).getD ""
    has_contact_form := (co.bind (fun o => o.has_contact_form)).getD false }

/-- customer_contacts_view as defined in src/unnamed/part_001: LEFT JOIN
creator_outreach with the visibility filter (the filter references co
columns, so creators without an outreach row are excluded). -/
def customer_contacts_view (db : Db) : List CustomerContactRow :=
  db.creators.filterMap (fun c =>
    match findOutreach db c.id with
    | some co => if contactRowVisible co then some (contactProjection c (some co)) else none
    | none => none)

/-- customer_contacts_view as defined in
src/supabase/views/customer_contacts_view.sql: the same projection with
no WHERE clause, one row for every creator. -/
def customer_contacts_view_unfiltered (db : Db) : List CustomerContactRow :=
  db.creators.map (fun c => contactProjection c (findOutreach db c.id))

/-- Entities whose guarded block neither wrote nor failed (the hash guard
skipped them); this count is not part of the returned record. -/
def countSkipped (step : Db → Jval → Except ErrEntry (Db × WriteKind)) :
    Db → List Jval → Nat
  | _, [] => 0
  | db, j :: rest =>
    match step db j with
    | .ok (db', .skipped) => countSkipped step db' rest + 1
    | .ok (db', _) => countSkipped step db' rest
    | .error _ => countSkipped step db rest

/-- The entity id a payload carries, as the bulk loops parse it; none on
an absent or unparsable id. -/
def payloadId (j : Jval) : Option Int :=
  match castIntPg (jGetText j "id") with
  | .ok (some i) => some i
  | _ => none

/-- Number of blocklist rows stored under a given domain key. -/
def countKey (t : List BlockedDomainRow) (k : String) : Nat :=
  (t.filter (fun row => row.domain == k)).length

/-! ## Concrete fixtures for the witnesses and counterexamples -/

/-- A creator_outreach row a human has already worked on (manual status
and notes, a stored contact form, a completed check). -/
def exOutreachManual : OutreachRow :=
  { creator_id := 7
    outreach_status := "partnership"
    has_instagram := false
    has_facebook := false
    has_twitter := false
    has_youtube := false
    has_tiktok := false
    has_linkedin := false
    has_patreon := false
    has_discord := false
    has_twitch := false
    has_bluesky := false
    has_other_website := false
    has_any_contact := true
    email := none
    email_source_url := none
    has_contact_form := some true
    contact_form_url := some "https://x.com/contact"
    last_contact_check_at := none
    contact_status := some "completed"
    contact_error := none
    contact_attempts := some 2
    site_hash := some "s1"
    first_contacted_at := none
    last_contacted_at := none
    response_received_at := none
    notes := some "call Tuesday"
    tags := []
    created_at := "t0"
    updated_at := "t0" }

/-- A database holding just that outreach row. -/
def exDb : Db := { creators := [], projects := [], outreach := [exOutreachManual] }

/-- A sync payload carrying only a creator_id and an email. -/
def exSyncPayload : Jval := Jval.obj [("creator_id", Jval.num 7), ("email", Jval.str "a@b.com")]

/-- The database after that payload merges into exDb. -/
def exDbAfter : Db :=
  match stepOutreach "t1" exDb exSyncPayload with
  | .ok p => p.1
  | .error _ => exDb

/-- The single outreach row stored after that merge. -/
def exMergedRow : OutreachRow :=
  ((sync_creator_outreach_bulk "t1" exDb [exSyncPayload]).1.outreach).headD exOutreachManual

/-- A minimal creators row with a chosen id and stored hash. -/
def exCreatorRow (i : Int) (h : Option String) : CreatorRow :=
  { id := i, slug := none, name := "A", is_registered := none, is_email_verified := none,
    chosen_currency := none, is_superbacker := none, has_admin_message_badge := false,
    ppo_has_action := false, backing_action_count := 0, avatar := none, urls := none,
    websites := Jval.arr [], data_hash := h, created_at := "t0", updated_at := "t0" }

/-- An empty database. -/
def emptyDb : Db := { creators := [], projects := [], outreach := [] }

/-- A database with a creator (id 9) and no outreach rows. -/
def exDb9 : Db := { creators := [exCreatorRow 9 none], projects := [], outreach := [] }

/-- A sync payload whose email is present but empty. -/
def exEmptyEmailPayload : Jval := Jval.obj [("creator_id", Jval.num 9), ("email", Jval.str "")]

/-- A creator snapshot carrying a data_hash. -/
def exCreatorPayloadH : Jval :=
  Jval.obj [("id", Jval.num 10), ("name", Jval.str "A"), ("data_hash", Jval.str "h")]

/-- A creator snapshot without a data_hash. -/
def exNoHashPayload : Jval := Jval.obj [("id", Jval.num 10), ("name", Jval.str "A")]

/-- A creator payload whose id text fails the bigint cast. -/
def exBadPayload : Jval := Jval.obj [("id", Jval.str "abc"), ("name", Jval.str "B")]

/-- The error entry the loop records for exBadPayload. -/
def exErrEntry : ErrEntry :=
  { idKey := "creator_id", entityId := some "abc",
    message := "invalid input syntax for type bigint: abc" }

/-- Creators 10, 11 and 12 stored with hash h. -/
def exHashDb : Db :=
  { creators := [exCreatorRow 10 (some "h"), exCreatorRow 11 (some "h"), exCreatorRow 12 (some "h")],
    projects := [], outreach := [] }

/-- A payload of height 13 inserting a new creator. -/
def exCreatorPayload13 : Jval :=
  Jval.obj [("id", Jval.num 13), ("name", Jval.str "A"), ("data_hash", Jval.str "h")]

/-- Snapshots for creators 10, 11, 12 (all hash-matched) and 13 (new). -/
def exBatch4 : List Jval :=
  [Jval.obj [("id", Jval.num 10), ("name", Jval.str "A"), ("data_hash", Jval.str "h")],
   Jval.obj [("id", Jval.num 11), ("name", Jval.str "A"), ("data_hash", Jval.str "h")],
   Jval.obj [("id", Jval.num 12), ("name", Jval.str "A"), ("data_hash", Jval.str "h")],
   exCreatorPayload13]

/-- A batch holding only a malformed payload. -/
def exBatchBad : List Jval := [exBadPayload]

/-- A projects row with id 20, stored hash h. -/
def exProjectRow : ProjectRow :=
  { id := 20, creator_id := 10, name := "P", blurb := none, slug := "p", state := "live",
    country := "US", country_displayable_name := none, currency := "USD", goal := "100",
    pledged := none, backers_count := none, state_changed_at := none, created_at_ks := "t0",
    launched_at := none, deadline := none, photo := none, category := none, location := none,
    profile := none, urls := none, data_hash := some "h", created_at := "t0", updated_at := "t0" }

/-- A database holding that project. -/
def exProjDb : Db := { creators := [], projects := [exProjectRow], outreach := [] }

/-- A project snapshot carrying id 20 and the matching hash. -/
def exProjectPayloadH : Jval := Jval.obj [("id", Jval.num 20), ("data_hash", Jval.str "h")]

/-- A full project snapshot (all NOT NULL columns present). -/
def exProjectPayloadFull : Jval :=
  Jval.obj [("id", Jval.num 20), ("slug", Jval.str "p"), ("name", Jval.str "P"),
    ("goal", Jval.str "100"), ("currency", Jval.str "USD"), ("country", Jval.str "US"),
    ("state", Jval.str "live"), ("created_at_ks", Jval.str "t0"),
    ("creator_id", Jval.num 10), ("data_hash", Jval.str "h")]

/-- A database holding creator 10 (the foreign-key target). -/
def exCreatorDb : Db := { creators := [exCreatorRow 10 none], projects := [], outreach := [] }

/-- A stored blocklist row for x.com. -/
def exBlockedRow : BlockedDomainRow :=
  { domain := "x.com", reason := some "r0", source := some "s0", notes := none,
    created_at := "t0", updated_at := "t0" }

/-- The row firecrawl_block_domain writes for Foo.COM into an empty table. -/
def exFreshBlockRow : BlockedDomainRow :=
  { domain := "foo.com", reason := some "r", source := some "s", notes := none,
    created_at := "t1", updated_at := "t1" }

/-- A pool of one active credential. -/
def exPool1 : List PoolAccount := [{ id := 1, status := AccountStatus.active }]

/-- A pool with one active and one exhausted credential. -/
def exPool2 : List PoolAccount :=
  [{ id := 1, status := AccountStatus.active }, { id := 2, status := AccountStatus.exhausted }]

/-- An interleaving that acquires, releases id 2 and acquires again. -/
def exPoolOps : List PoolOp := [PoolOp.acquire, PoolOp.release 2, PoolOp.acquire]

/-- A database where creator 7 has the completed outreach row. -/
def exViewDb : Db :=
  { creators := [exCreatorRow 7 none], projects := [], outreach := [exOutreachManual] }

/-- The row the filtered view returns for exViewDb. -/
def exContactRow : CustomerContactRow :=
  (customer_contacts_view exViewDb).headD (contactProjection (exCreatorRow 7 none) none)

/-- A database with a creator and no outreach rows at all. -/
def exNoContactDb : Db := { creators := [exCreatorRow 7 none], projects := [], outreach := [] }

/-! ## Generic facts about the bulk loop -/

/-- Concatenation of two loop segments' results. -/
def BulkResult.combine (a b : BulkResult) : BulkResult :=
  ⟨a.inserted_count + b.inserted_count, a.updated_count + b.updated_count,
   a.total_count + b.total_count, a.errors ++ b.errors⟩

theorem BulkResult.zero_combine (r : BulkResult) :
    BulkResult.combine ⟨0, 0, 0, []⟩ r = r := by
  simp [BulkResult.combine]

theorem BulkResult.combine_afterOk (a b : BulkResult) (k : WriteKind) :
    (a.combine b).afterOk k = (a.afterOk k).combine b := by
  simp [BulkResult.combine, BulkResult.afterOk]; omega

theorem BulkResult.combine_afterErr (a b : BulkResult) (e : ErrEntry) :
    (a.combine b).afterErr e = (a.afterErr e).combine b := by
  simp [BulkResult.combine, BulkResult.afterErr]; omega

/-- The loop over xs ++ ys is the loop over xs followed by the loop over
ys from the reached state, with the counters and error lists added up. -/
theorem runBulk_append (step : Db → Jval → Except ErrEntry (Db × WriteKind)) :
    ∀ (xs : List Jval) (ys : List Jval) (db : Db),
    runBulk step db (xs ++ ys) =
      ((runBulk step (runBulk step db xs).1 ys).1,
       (runBulk step db xs).2.combine (runBulk step (runBulk step db xs).1 ys).2) := by
  intro xs
  induction xs with
  | nil => intro ys db; simp [runBulk, BulkResult.zero_combine]
  | cons x xs ih =>
    intro ys db
    cases h : step db x with
    | ok p =>
      simp only [List.cons_append, runBulk, h, List.append_eq]
      rw [ih ys p.1, BulkResult.combine_afterOk]
    | error e =>
      simp only [List.cons_append, runBulk, h, List.append_eq]
      rw [ih ys db, BulkResult.combine_afterErr]

/-- Every call accounts for each entity exactly once: total_count is the
batch size and equals inserted + updated + skipped + failed, where failed
is the length of the returned error list. -/
theorem runBulk_accounting (step : Db → Jval → Except ErrEntry (Db × WriteKind)) :
    ∀ (batch : List Jval) (db : Db),
    (runBulk step db batch).2.total_count = batch.length ∧
    (runBulk step db batch).2.inserted_count + (runBulk step db batch).2.updated_count +
      countSkipped step db batch + (runBulk step db batch).2.errors.length =
      batch.length := by
  intro batch
  induction batch with
  | nil => intro db; simp [runBulk, countSkipped]
  | cons j rest ih =>
    intro db
    cases h : step db j with
    | ok p =>
      obtain ⟨db', k⟩ := p
      obtain ⟨ih1, ih2⟩ := ih db'
      cases k
      all_goals
        simp [runBulk, countSkipped, h, BulkResult.afterOk]
        omega
    | error e =>
      obtain ⟨ih1, ih2⟩ := ih db
      simp [runBulk, countSkipped, h, BulkResult.afterErr]
      omega

/-- Every returned error entry comes from some entity of the batch, with
whatever shape the step function gives its errors. -/
theorem runBulk_errors_shape (step : Db → Jval → Except ErrEntry (Db × WriteKind))
    (P : Jval → ErrEntry → Prop)
    (hstep : ∀ db j e, step db j = .error e → P j e) :
    ∀ (batch : List Jval) (db : Db) (e : ErrEntry),
    e ∈ (runBulk step db batch).2.errors → ∃ j ∈ batch, P j e := by
  intro batch
  induction batch with
  | nil => intro db e he; simp [runBulk] at he
  | cons j rest ih =>
    intro db e he
    cases h : step db j with
    | ok p =>
      obtain ⟨db', k⟩ := p
      simp only [runBulk, h, BulkResult.afterOk] at he
      obtain ⟨j', hj', hP⟩ := ih db' e he
      exact ⟨j', List.mem_cons_of_mem _ hj', hP⟩
    | error e' =>
      simp only [runBulk, h, BulkResult.afterErr, List.mem_cons] at he
      rcases he with rfl | he
      · exact ⟨j, List.mem_cons_self _ _, hstep db j e h⟩
      · obtain ⟨j', hj', hP⟩ := ih db e he
        exact ⟨j', List.mem_cons_of_mem _ hj', hP⟩

/-- A run in which every entity either skips or fails leaves the state
untouched and reports zero inserts and zero updates. -/
theorem runBulk_stable (step : Db → Jval → Except ErrEntry (Db × WriteKind)) :
    ∀ (batch : List Jval) (db : Db),
    (∀ j ∈ batch, step db j = .ok (db, .skipped) ∨ ∃ e, step db j = .error e) →
    (runBulk step db batch).1 = db ∧
    (runBulk step db batch).2.inserted_count = 0 ∧
    (runBulk step db batch).2.updated_count = 0 := by
  intro batch
  induction batch with
  | nil => intro db _; simp [runBulk]
  | cons j rest ih =>
    intro db h
    rcases h j (List.mem_cons_self _ _) with hj | ⟨e, hj⟩
    · have hrest := ih db (fun j' hj' => h j' (List.mem_cons_of_mem _ hj'))
      simp [runBulk, hj, hrest, BulkResult.afterOk]
    · have hrest := ih db (fun j' hj' => h j' (List.mem_cons_of_mem _ hj'))
      simp [runBulk, hj, hrest, BulkResult.afterErr]

/-! ## List-level facts about keyed tables -/

theorem find?_append_left (p : α → Bool) (l1 l2 : List α)
    (h : (l1.find? p).isSome) : (l1 ++ l2).find? p = l1.find? p := by
  obtain ⟨v, hv⟩ := Option.isSome_iff_exists.mp h
  rw [List.find?_append, hv]
  rfl

theorem find?_append_none (p : α → Bool) (l1 l2 : List α)
    (h : l1.find? p = none) : (l1 ++ l2).find? p = l2.find? p := by
  rw [List.find?_append, h]
  rfl

theorem find?_listUpdate_self (p : α → Bool) (new : α) (l : List α)
    (h : (l.find? p).isSome) (hnew : p new = true) :
    (listUpdate p new l).find? p = some new := by
  induction l with
  | nil => simp [List.find?] at h
  | cons x xs ih =>
    cases hx : p x with
    | true => simp [listUpdate, hx, List.find?, hnew]
    | false =>
      rw [List.find?_cons_of_neg _ (by simp [hx])] at h
      simp only [listUpdate, hx, Bool.false_eq_true, if_false]
      rw [List.find?_cons_of_neg _ (by simp [hx])]
      exact ih h

theorem find?_listUpdate_other (p q : α → Bool) (new : α) (l : List α)
    (hnew : q new = false) (h : ∀ x ∈ l, p x = true → q x = false) :
    (listUpdate p new l).find? q = l.find? q := by
  induction l with
  | nil => simp [listUpdate]
  | cons x xs ih =>
    cases hx : p x with
    | true =>
      have hqx := h x (List.mem_cons_self _ _) hx
      simp [listUpdate, hx, List.find?, hnew, hqx]
    | false =>
      cases hqx : q x with
      | true => simp [listUpdate, hx, List.find?, hqx]
      | false =>
        simp only [listUpdate, hx, Bool.false_eq_true, if_false]
        rw [List.find?_cons_of_neg _ (by simp [hqx]),
          List.find?_cons_of_neg _ (by simp [hqx])]
        exact ih (fun y hy hpy => h y (List.mem_cons_of_mem _ hy) hpy)

theorem mem_listUpdate (p : α → Bool) (new : α) (l : List α) (x : α)
    (h : x ∈ listUpdate p new l) : x = new ∨ x ∈ l := by
  induction l with
  | nil => simp [listUpdate] at h
  | cons y ys ih =>
    by_cases hy : p y
    · simp only [listUpdate, hy, if_pos, List.mem_cons] at h
      rcases h with rfl | h
      · exact Or.inl rfl
      · exact Or.inr (List.mem_cons_of_mem _ h)
    · simp only [listUpdate, hy, if_neg, Bool.not_eq_true, List.mem_cons] at h
      rcases h with rfl | h
      · exact Or.inr (List.mem_cons_self _ _)
      · rcases ih h with h' | h'
        · exact Or.inl h'
        · exact Or.inr (List.mem_cons_of_mem _ h')

/-! ## Characterizing the sync_creator_outreach_bulk step -/

/-- Inversion of the proposed-row builder: when it succeeds, each field
of the proposed row is determined by the payload as the VALUES clause
writes it. -/
theorem excludedOutreachRow_fields (now : String) (j : Jval) (excl : OutreachRow)
    (h : excludedOutreachRow now j = .ok excl) :
    excl.outreach_status = (jGetText j "outreach_status").getD "not_contacted" ∧
    excl.email = jGetText j "email" ∧
    excl.email_source_url = jGetText j "email_source_url" ∧
    excl.contact_form_url = jGetText j "contact_form_url" ∧
    excl.contact_error = jGetText j "contact_error" ∧
    excl.site_hash = jGetText j "site_hash" ∧
    excl.last_contact_check_at = castTimestampPg (nullifEmpty (jGetText j "last_contact_check_at")) ∧
    excl.notes = jGetText j "notes" ∧
    excl.contact_status = some ((jGetText j "contact_status").getD "not_checked") ∧
    (∃ b, castBoolPg (jGetText j "has_contact_form") = .ok b ∧
      excl.has_contact_form = some (b.getD false)) ∧
    (∃ n, castIntPg (jGetText j "contact_attempts") = .ok n ∧
      excl.contact_attempts = some (n.getD 0)) ∧
    excl.has_any_contact = hasAnyContactOf excl.email excl.has_contact_form := by
  simp only [excludedOutreachRow, Bind.bind, Except.bind, pure, Except.pure] at h
  cases h1 : castBoolPg (jGetText j "has_instagram") with
  | error e => simp only [h1] at h; exact Except.noConfusion h
  | ok v1 =>
  simp only [h1] at h
  cases h2 : castBoolPg (jGetText j "has_facebook") with
  | error e => simp only [h2] at h; exact Except.noConfusion h
  | ok v2 =>
  simp only [h2] at h
  cases h3 : castBoolPg (jGetText j "has_twitter") with
  | error e => simp only [h3] at h; exact Except.noConfusion h
  | ok v3 =>
  simp only [h3] at h
  cases h4 : castBoolPg (jGetText j "has_youtube") with
  | error e => simp only [h4] at h; exact Except.noConfusion h
  | ok v4 =>
  simp only [h4] at h
  cases h5 : castBoolPg (jGetText j "has_tiktok") with
  | error e => simp only [h5] at h; exact Except.noConfusion h
  | ok v5 =>
  simp only [h5] at h
  cases h6 : castBoolPg (jGetText j "has_linkedin") with
  | error e => simp only [h6] at h; exact Except.noConfusion h
  | ok v6 =>
  simp only [h6] at h
  cases h7 : castBoolPg (jGetText j "has_patreon") with
  | error e => simp only [h7] at h; exact Except.noConfusion h
  | ok v7 =>
  simp only [h7] at h
  cases h8 : castBoolPg (jGetText j "has_discord") with
  | error e => simp only [h8] at h; exact Except.noConfusion h
  | ok v8 =>
  simp only [h8] at h
  cases h9 : castBoolPg (jGetText j "has_twitch") with
  | error e => simp only [h9] at h; exact Except.noConfusion h
  | ok v9 =>
  simp only [h9] at h
  cases h10 : castBoolPg (jGetText j "has_bluesky") with
  | error e => simp only [h10] at h; exact Except.noConfusion h
  | ok v10 =>
  simp only [h10] at h
  cases h11 : castBoolPg (jGetText j "has_other_website") with
  | error e => simp only [h11] at h; exact Except.noConfusion h
  | ok v11 =>
  simp only [h11] at h
  cases h12 : castBoolPg (jGetText j "has_contact_form") with
  | error e => simp only [h12] at h; exact Except.noConfusion h
  | ok v12 =>
  simp only [h12] at h
  cases h13 : castIntPg (jGetText j "contact_attempts") with
  | error e => simp only [h13] at h; exact Except.noConfusion h
  | ok v13 =>
  simp only [h13] at h
  injection h with h
  subst h
  exact ⟨rfl, rfl, rfl, rfl, rfl, rfl, rfl, rfl, rfl, ⟨v12, rfl, rfl⟩, ⟨v13, rfl, rfl⟩, rfl⟩

/-- Outcome analysis of one sync_creator_outreach_bulk iteration: a
successful step either merged into the existing row for the payload's
creator_id, or inserted a fresh row for it. -/
theorem stepOutreach_cases (now : String) (db : Db) (j : Jval) (db' : Db) (k : WriteKind)
    (h : stepOutreach now db j = .ok (db', k)) :
    (∃ cid excl old, castIntPg (jGetText j "creator_id") = .ok (some cid) ∧
      excludedOutreachRow now j = .ok excl ∧
      findOutreach db cid = some old ∧ k = .updated ∧
      db'.creators = db.creators ∧ db'.projects = db.projects ∧
      db'.outreach = listUpdate (fun r => some r.creator_id == some cid) (outreachConflictUpdate old excl now) db.outreach) ∨
    (∃ cid excl, castIntPg (jGetText j "creator_id") = .ok (some cid) ∧
      excludedOutreachRow now j = .ok excl ∧
      findOutreach db cid = none ∧ k = .inserted ∧
      db'.creators = db.creators ∧ db'.projects = db.projects ∧
      db'.outreach = db.outreach ++ [{ excl with creator_id := cid }]) := by
  unfold stepOutreach at h
  cases hc : castIntPg (jGetText j "creator_id") with
  | error e => simp only [hc] at h; exact Except.noConfusion h
  | ok idOpt =>
  simp only [hc] at h
  unfold stepOutreachCore at h
  simp only [Bind.bind, Except.bind, pure, Except.pure] at h
  cases he : excludedOutreachRow now j with
  | error e => simp only [he] at h; exact Except.noConfusion h
  | ok excl =>
  simp only [he] at h
  cases idOpt with
  | none => simp only [throw, throwThe, MonadExceptOf.throw] at h; exact Except.noConfusion h
  | some cid =>
  dsimp only [Option.bind] at h
  cases hf : findOutreach db cid with
  | some old =>
    rw [hf] at h
    injection h with h
    cases h
    exact Or.inl ⟨cid, excl, old, rfl, rfl, hf, rfl, rfl, rfl, rfl⟩
  | none =>
    rw [hf] at h
    cases hok : (findCreator db cid).isSome with
    | true =>
      rw [hok] at h
      simp only [reduceIte] at h
      injection h with h
      cases h
      exact Or.inr ⟨cid, excl, rfl, rfl, hf, rfl, rfl, rfl, rfl⟩
    | false =>
      rw [hok] at h
      simp only [Bool.false_eq_true, if_false, throw, throwThe,
        MonadExceptOf.throw] at h
      exact Except.noConfusion h

/-- How one sync step can affect the stored row of a fixed creator: it is
either left untouched or replaced by the conflict merge of itself with
some successfully built proposed row. -/
theorem stepOutreach_row_evolution (now : String) (db : Db) (j : Jval)
    (db' : Db) (k : WriteKind) (cid0 : Int) (r : OutreachRow)
    (hr : findOutreach db cid0 = some r)
    (h : stepOutreach now db j = .ok (db', k)) :
    findOutreach db' cid0 = some r ∨
    ∃ excl, excludedOutreachRow now j = .ok excl ∧
      findOutreach db' cid0 = some (outreachConflictUpdate r excl now) := by
  have hpred : (fun r' : OutreachRow => some r'.creator_id == some cid0) =
      (fun r' : OutreachRow => r'.creator_id == cid0) := by
    funext r'
    rfl
  rcases stepOutreach_cases now db j db' k h with
    ⟨cid, excl, old, hc, he, hf, hk, hcr, hpr, hout⟩ |
    ⟨cid, excl, hc, he, hf, hk, hcr, hpr, hout⟩
  · by_cases hcc : cid = cid0
    · subst hcc
      have hold : old = r := by rw [hf] at hr; exact Option.some.injEq .. ▸ hr.symm ▸ rfl
      subst hold
      right
      refine ⟨excl, he, ?_⟩
      have hnew : ((outreachConflictUpdate old excl now).creator_id == cid) = true := by
        have := List.find?_some hf
        simpa [outreachConflictUpdate] using this
      unfold findOutreach
      rw [hout, hpred]
      exact find?_listUpdate_self _ _ _ (by unfold findOutreach at hr; simp [hr]) hnew
    · left
      have holdid : old.creator_id = cid := by
        have := List.find?_some hf
        simpa using this
      unfold findOutreach
      rw [hout]
      rw [find?_listUpdate_other _ _ _ _ ?hnew ?hall]
      · exact hr
      case hnew =>
        simp [outreachConflictUpdate, holdid, hcc]
      case hall =>
        intro x _ hx
        have : x.creator_id = cid := by simpa using hx
        simp [this, hcc]
  · by_cases hcc : cid = cid0
    · subst hcc
      rw [hf] at hr
      exact Option.noConfusion hr
    · left
      unfold findOutreach
      rw [hout]
      rw [find?_append_left]
      · exact hr
      · unfold findOutreach at hr
        simp [hr]

/-- Bulk-level preservation of human-owned columns: across a whole
sync_creator_outreach_bulk call, a row whose outreach_status is not the
default keeps its outreach_status and its notes. -/
theorem sync_manual_aux (now : String) (cid : Int) :
    ∀ (batch : List Jval) (db : Db) (r : OutreachRow),
    findOutreach db cid = some r → r.outreach_status ≠ "not_contacted" →
    ∃ r', findOutreach (sync_creator_outreach_bulk now db batch).1 cid = some r' ∧
      r'.outreach_status = r.outreach_status ∧ r'.notes = r.notes := by
  intro batch
  induction batch with
  | nil =>
    intro db r hr _
    exact ⟨r, hr, rfl, rfl⟩
  | cons j rest ih =>
    intro db r hr hs
    show ∃ r', findOutreach (runBulk (stepOutreach now) db (j :: rest)).1 cid = some r' ∧ _
    cases hstep : stepOutreach now db j with
    | ok p =>
      obtain ⟨db1, k⟩ := p
      rcases stepOutreach_row_evolution now db j db1 k cid r hr hstep with h1 | ⟨excl, _, h1⟩
      · obtain ⟨r', hfind, hst, hnt⟩ := ih db1 r h1 hs
        exact ⟨r', by simpa [runBulk, hstep] using hfind, hst, hnt⟩
      · have hst1 : (outreachConflictUpdate r excl now).outreach_status = r.outreach_status := by
          simp [outreachConflictUpdate, hs]
        have hnt1 : (outreachConflictUpdate r excl now).notes = r.notes := rfl
        obtain ⟨r', hfind, hst, hnt⟩ :=
          ih db1 (outreachConflictUpdate r excl now) h1 (by rw [hst1]; exact hs)
        exact ⟨r', by simpa [runBulk, hstep] using hfind,
          by rw [hst, hst1], by rw [hnt, hnt1]⟩
    | error e =>
      obtain ⟨r', hfind, hst, hnt⟩ := ih db r hr hs
      exact ⟨r', by simpa [runBulk, hstep] using hfind, hst, hnt⟩

/-- C1: an automated sync sets outreach_status to the incoming value only
while the stored value is still the default 'not_contacted'; any other
stored outreach_status, and the stored notes, survive any
sync_creator_outreach_bulk call with any payloads unchanged. -/
theorem sync_preserves_manual_outreach :
    (∀ (now : String) (db : Db) (batch : List Jval) (cid : Int) (r : OutreachRow),
      findOutreach db cid = some r → r.outreach_status ≠ "not_contacted" →
      ∃ r', findOutreach (sync_creator_outreach_bulk now db batch).1 cid = some r' ∧
        r'.outreach_status = r.outreach_status ∧ r'.notes = r.notes) ∧
    (∀ (old excl : OutreachRow) (t : String),
      (outreachConflictUpdate old excl t).outreach_status =
        (if old.outreach_status = "not_contacted" then excl.outreach_status
          else old.outreach_status) ∧
      (outreachConflictUpdate old excl t).notes = old.notes) := by
  constructor
  · intro now db batch cid r hr hs
    exact sync_manual_aux now cid batch db r hr hs
  · intro old excl t
    exact ⟨rfl, rfl⟩

/-- C2 (amended): when a sync payload merges into an existing row, the
six nullable auto-discovered columns follow coalesce-preserve semantics
(an absent incoming value keeps the stored value, a present one
overwrites), but the three columns whose VALUES expression coalesces to
a default (has_contact_form, contact_status, contact_attempts) are
always overwritten by the proposed value, so an absent incoming value
resets them to false / 'not_checked' / 0 instead of preserving them. -/
theorem sync_merge_field_semantics (now : String) (db : Db) (j : Jval)
    (db' : Db) (k : WriteKind) (cid : Int) (old : OutreachRow)
    (hc : castIntPg (jGetText j "creator_id") = .ok (some cid))
    (hr : findOutreach db cid = some old)
    (hstep : stepOutreach now db j = .ok (db', k)) :
    ∃ r', findOutreach db' cid = some r' ∧
      r'.email = coalesce (jGetText j "email") old.email ∧
      r'.email_source_url = coalesce (jGetText j "email_source_url") old.email_source_url ∧
      r'.contact_form_url = coalesce (jGetText j "contact_form_url") old.contact_form_url ∧
      r'.contact_error = coalesce (jGetText j "contact_error") old.contact_error ∧
      r'.site_hash = coalesce (jGetText j "site_hash") old.site_hash ∧
      r'.last_contact_check_at = coalesce (nullifEmpty (jGetText j "last_contact_check_at")) old.last_contact_check_at ∧
      (jGetText j "has_contact_form" = none → r'.has_contact_form = some false) ∧
      (jGetText j "contact_status" = none → r'.contact_status = some "not_checked") ∧
      (jGetText j "contact_attempts" = none → r'.contact_attempts = some 0) := by
  rcases stepOutreach_cases now db j db' k hstep with
    ⟨cid1, excl, old1, hc1, he, hf, hk, hcr, hpr, hout⟩ |
    ⟨cid1, excl, hc1, he, hf, hk, hcr, hpr, hout⟩
  · have hcid : cid = cid1 := by
      rw [hc] at hc1
      injection hc1 with hc1
      injection hc1
    subst hcid
    have hold : old = old1 := by
      rw [hf] at hr
      injection hr with hr
      exact hr.symm
    subst hold
    obtain ⟨_, hem, hesu, hcfu, hcerr, hsh, hlcc, _, hcst, ⟨b, hb, hhcf⟩, ⟨n, hn, hatt⟩, _⟩ :=
      excludedOutreachRow_fields now j excl he
    have hfind : findOutreach db' cid = some (outreachConflictUpdate old excl now) := by
      have hnew : ((outreachConflictUpdate old excl now).creator_id == cid) = true := by
        have := List.find?_some hf
        simpa [outreachConflictUpdate] using this
      have hpred : (fun r' : OutreachRow => some r'.creator_id == some cid) =
          (fun r' : OutreachRow => r'.creator_id == cid) := by
        funext r'
        rfl
      unfold findOutreach
      rw [hout, hpred]
      exact find?_listUpdate_self _ _ _ (by unfold findOutreach at hr; simp [hr]) hnew
    refine ⟨outreachConflictUpdate old excl now, hfind, ?_, ?_, ?_, ?_, ?_, ?_, ?_, ?_, ?_⟩
    · simp [outreachConflictUpdate, hem]
    · simp [outreachConflictUpdate, hesu]
    · simp [outreachConflictUpdate, hcfu]
    · simp [outreachConflictUpdate, hcerr]
    · simp [outreachConflictUpdate, hsh]
    · simp [outreachConflictUpdate, hlcc, castTimestampPg]
    · intro habs
      rw [habs] at hb
      have hbnone : b = none := by
        simpa [castBoolPg] using hb.symm
      subst hbnone
      simp [outreachConflictUpdate, hhcf, coalesce]
    · intro habs
      rw [habs] at hcst
      simp [outreachConflictUpdate, hcst, coalesce]
    · intro habs
      rw [habs] at hn
      have hnnone : n = none := by
        simpa [castIntPg] using hn.symm
      subst hnnone
      simp [outreachConflictUpdate, hatt, coalesce]
  · have hcid : cid = cid1 := by
      rw [hc] at hc1
      injection hc1 with hc1
      injection hc1
    subst hcid
    rw [hf] at hr
    exact Option.noConfusion hr

/-- One sync step keeps every stored row's generated has_any_contact
column equal to its defining expression. -/
theorem stepOutreach_hasAnyContact (now : String) (db : Db) (j : Jval)
    (db' : Db) (k : WriteKind)
    (h : stepOutreach now db j = .ok (db', k))
    (hdb : ∀ o ∈ db.outreach, o.has_any_contact = hasAnyContactOf o.email o.has_contact_form) :
    ∀ o ∈ db'.outreach, o.has_any_contact = hasAnyContactOf o.email o.has_contact_form := by
  rcases stepOutreach_cases now db j db' k h with
    ⟨cid, excl, old, hc, he, hf, hk, hcr, hpr, hout⟩ |
    ⟨cid, excl, hc, he, hf, hk, hcr, hpr, hout⟩
  · intro o ho
    rw [hout] at ho
    rcases mem_listUpdate _ _ _ _ ho with rfl | ho'
    · rfl
    · exact hdb o ho'
  · intro o ho
    rw [hout] at ho
    rcases List.mem_append.mp ho with ho' | ho'
    · exact hdb o ho'
    · obtain ⟨_, _, _, _, _, _, _, _, _, _, _, hgen⟩ :=
        excludedOutreachRow_fields now j excl he
      have : o = { excl with creator_id := cid } := by simpa using ho'
      subst this
      simpa using hgen

/-- C4 (amended): after any number of sync inserts or merges, every
stored creator_outreach row satisfies has_any_contact =
(email IS NOT NULL) OR COALESCE(has_contact_form, false) — the stored
generated column tracks non-nullness of email, not non-emptiness. -/
theorem sync_hasAnyContact_invariant (now : String) (db : Db) (batch : List Jval)
    (hdb : ∀ o ∈ db.outreach, o.has_any_contact = hasAnyContactOf o.email o.has_contact_form) :
    ∀ o ∈ (sync_creator_outreach_bulk now db batch).1.outreach,
      o.has_any_contact = hasAnyContactOf o.email o.has_contact_form := by
  induction batch generalizing db with
  | nil => exact hdb
  | cons j rest ih =>
    show ∀ o ∈ (runBulk (stepOutreach now) db (j :: rest)).1.outreach, _
    cases hstep : stepOutreach now db j with
    | ok p =>
      obtain ⟨db1, k⟩ := p
      have h1 := stepOutreach_hasAnyContact now db j db1 k hstep hdb
      intro o ho
      exact ih db1 h1 o (by simpa [runBulk, hstep] using ho)
    | error e =>
      intro o ho
      exact ih db hdb o (by simpa [runBulk, hstep] using ho)

/-- A failing entity in the middle of a batch contributes exactly its
error entry: the final state is as if the entity had not been in the
batch, and the error is reported. -/
theorem runBulk_error_isolation (step : Db → Jval → Except ErrEntry (Db × WriteKind))
    (db : Db) (b1 : List Jval) (j : Jval) (b2 : List Jval) (e : ErrEntry)
    (h : step (runBulk step db b1).1 j = .error e) :
    (runBulk step db (b1 ++ j :: b2)).1 = (runBulk step db (b1 ++ b2)).1 ∧
    e ∈ (runBulk step db (b1 ++ j :: b2)).2.errors := by
  have ha := runBulk_append step b1 (j :: b2) db
  have hb := runBulk_append step b1 b2 db
  constructor
  · rw [ha, hb]
    simp [runBulk, h]
  · rw [ha]
    simp [runBulk, h, BulkResult.combine, BulkResult.afterErr]

/-- C5: in all three bulk functions, one failing entity neither aborts
the batch nor rolls back its siblings: the stored state is the same as
if the failing entity were absent, and its error entry is reported. -/
theorem bulk_entity_failure_isolated :
    (∀ (now : String) (db : Db) (b1 : List Jval) (j : Jval) (b2 : List Jval) (e : ErrEntry),
      stepCreator now (upsert_creators_bulk now db b1).1 j = .error e →
      (upsert_creators_bulk now db (b1 ++ j :: b2)).1 =
        (upsert_creators_bulk now db (b1 ++ b2)).1 ∧
      e ∈ (upsert_creators_bulk now db (b1 ++ j :: b2)).2.errors) ∧
    (∀ (now : String) (db : Db) (b1 : List Jval) (j : Jval) (b2 : List Jval) (e : ErrEntry),
      stepProject now (upsert_projects_bulk now db b1).1 j = .error e →
      (upsert_projects_bulk now db (b1 ++ j :: b2)).1 =
        (upsert_projects_bulk now db (b1 ++ b2)).1 ∧
      e ∈ (upsert_projects_bulk now db (b1 ++ j :: b2)).2.errors) ∧
    (∀ (now : String) (db : Db) (b1 : List Jval) (j : Jval) (b2 : List Jval) (e : ErrEntry),
      stepOutreach now (sync_creator_outreach_bulk now db b1).1 j = .error e →
      (sync_creator_outreach_bulk now db (b1 ++ j :: b2)).1 =
        (sync_creator_outreach_bulk now db (b1 ++ b2)).1 ∧
      e ∈ (sync_creator_outreach_bulk now db (b1 ++ j :: b2)).2.errors) :=
  ⟨fun now db b1 j b2 e h => runBulk_error_isolation (stepCreator now) db b1 j b2 e h,
   fun now db b1 j b2 e h => runBulk_error_isolation (stepProject now) db b1 j b2 e h,
   fun now db b1 j b2 e h => runBulk_error_isolation (stepOutreach now) db b1 j b2 e h⟩

/-- Every error entry of upsert_creators_bulk names the failing payload's
creator id under the key creator_id, with the caught message. -/
theorem stepCreator_error_shape (now : String) (db : Db) (j : Jval) (e : ErrEntry)
    (h : stepCreator now db j = .error e) :
    e.idKey = "creator_id" ∧ e.entityId = jGetText j "id" := by
  unfold stepCreator at h
  cases hc : castIntPg (jGetText j "id") with
  | error e1 =>
    rw [hc] at h
    injection h with h
    subst h
    exact ⟨rfl, rfl⟩
  | ok idOpt =>
    simp only [hc] at h
    cases hcore : stepCreatorCore now j idOpt (idOpt.bind (findCreator db)) with
    | error e1 =>
      simp only [hcore] at h
      injection h with h
      subst h
      exact ⟨rfl, rfl⟩
    | ok res =>
      simp only [hcore] at h
      rcases res with _ | ⟨row, k⟩
      · exact Except.noConfusion h
      · cases k <;> exact Except.noConfusion h

/-- Likewise for upsert_projects_bulk (key project_id). -/
theorem stepProject_error_shape (now : String) (db : Db) (j : Jval) (e : ErrEntry)
    (h : stepProject now db j = .error e) :
    e.idKey = "project_id" ∧ e.entityId = jGetText j "id" := by
  unfold stepProject at h
  cases hc : castIntPg (jGetText j "id") with
  | error e1 =>
    rw [hc] at h
    injection h with h
    subst h
    exact ⟨rfl, rfl⟩
  | ok idOpt =>
    simp only [hc] at h
    cases hcore : stepProjectCore now j idOpt (idOpt.bind (findProject db))
        (fun c => (findCreator db c).isSome) with
    | error e1 =>
      simp only [hcore] at h
      injection h with h
      subst h
      exact ⟨rfl, rfl⟩
    | ok res =>
      simp only [hcore] at h
      rcases res with _ | ⟨row, k⟩
      · exact Except.noConfusion h
      · cases k <;> exact Except.noConfusion h

/-- Likewise for sync_creator_outreach_bulk (key creator_id). -/
theorem stepOutreach_error_shape (now : String) (db : Db) (j : Jval) (e : ErrEntry)
    (h : stepOutreach now db j = .error e) :
    e.idKey = "creator_id" ∧ e.entityId = jGetText j "creator_id" := by
  unfold stepOutreach at h
  cases hc : castIntPg (jGetText j "creator_id") with
  | error e1 =>
    rw [hc] at h
    injection h with h
    subst h
    exact ⟨rfl, rfl⟩
  | ok idOpt =>
    simp only [hc] at h
    cases hcore : stepOutreachCore now j idOpt (idOpt.bind (findOutreach db))
        (fun c => (findCreator db c).isSome) with
    | error e1 =>
      simp only [hcore] at h
      injection h with h
      subst h
      exact ⟨rfl, rfl⟩
    | ok res =>
      simp only [hcore] at h
      rcases res with _ | ⟨row, k⟩
      · exact Except.noConfusion h
      · cases k <;> exact Except.noConfusion h

/-- The sync step never skips: every non-failing entity is counted as an
insert or an update. -/
theorem stepOutreach_not_skipped (now : String) (db : Db) (j : Jval) (db' : Db)
    (h : stepOutreach now db j = .ok (db', .skipped)) : False := by
  rcases stepOutreach_cases now db j db' .skipped h with
    ⟨_, _, _, _, _, _, hk, _⟩ | ⟨_, _, _, _, _, hk, _⟩ <;> exact WriteKind.noConfusion hk

theorem countSkipped_outreach_zero (now : String) :
    ∀ (batch : List Jval) (db : Db), countSkipped (stepOutreach now) db batch = 0 := by
  intro batch
  induction batch with
  | nil => intro db; rfl
  | cons j rest ih =>
    intro db
    cases h : stepOutreach now db j with
    | ok p =>
      obtain ⟨db1, k⟩ := p
      cases k with
      | skipped => exact absurd h (fun hh => stepOutreach_not_skipped now db j db1 hh)
      | inserted => simp [countSkipped, h, ih]
      | updated => simp [countSkipped, h, ih]
    | error e => simp [countSkipped, h, ih]

/-- C6 (amended): each bulk call reports inserted, updated and total
counts plus a per-entity error list whose entries carry the entity id
and message; the failed count is the error list's length, the unchanged
(hash-skipped) count is total - inserted - updated - failed and is not a
separate field; sync_creator_outreach_bulk never skips, so there
inserted + updated + failed = total. -/
theorem bulk_result_reporting :
    (∀ (now : String) (db : Db) (batch : List Jval),
      (upsert_creators_bulk now db batch).2.total_count = batch.length ∧
      (upsert_creators_bulk now db batch).2.inserted_count +
        (upsert_creators_bulk now db batch).2.updated_count +
        countSkipped (stepCreator now) db batch +
        (upsert_creators_bulk now db batch).2.errors.length = batch.length ∧
      (∀ e ∈ (upsert_creators_bulk now db batch).2.errors,
        e.idKey = "creator_id" ∧ ∃ j ∈ batch, e.entityId = jGetText j "id")) ∧
    (∀ (now : String) (db : Db) (batch : List Jval),
      (upsert_projects_bulk now db batch).2.total_count = batch.length ∧
      (upsert_projects_bulk now db batch).2.inserted_count +
        (upsert_projects_bulk now db batch).2.updated_count +
        countSkipped (stepProject now) db batch +
        (upsert_projects_bulk now db batch).2.errors.length = batch.length ∧
      (∀ e ∈ (upsert_projects_bulk now db batch).2.errors,
        e.idKey = "project_id" ∧ ∃ j ∈ batch, e.entityId = jGetText j "id")) ∧
    (∀ (now : String) (db : Db) (batch : List Jval),
      (sync_creator_outreach_bulk now db batch).2.total_count = batch.length ∧
      (sync_creator_outreach_bulk now db batch).2.inserted_count +
        (sync_creator_outreach_bulk now db batch).2.updated_count +
        (sync_creator_outreach_bulk now db batch).2.errors.length = batch.length ∧
      (∀ e ∈ (sync_creator_outreach_bulk now db batch).2.errors,
        e.idKey = "creator_id" ∧ ∃ j ∈ batch, e.entityId = jGetText j "creator_id")) := by
  refine ⟨fun now db batch => ⟨?_, ?_, ?_⟩, fun now db batch => ⟨?_, ?_, ?_⟩,
    fun now db batch => ⟨?_, ?_, ?_⟩⟩
  · exact (runBulk_accounting (stepCreator now) batch db).1
  · exact (runBulk_accounting (stepCreator now) batch db).2
  · intro e he
    obtain ⟨j, hj, hP⟩ := runBulk_errors_shape (stepCreator now)
      (fun j e => e.idKey = "creator_id" ∧ e.entityId = jGetText j "id")
      (fun db' j' e' h' => stepCreator_error_shape now db' j' e' h') batch db e he
    exact ⟨hP.1, j, hj, hP.2⟩
  · exact (runBulk_accounting (stepProject now) batch db).1
  · exact (runBulk_accounting (stepProject now) batch db).2
  · intro e he
    obtain ⟨j, hj, hP⟩ := runBulk_errors_shape (stepProject now)
      (fun j e => e.idKey = "project_id" ∧ e.entityId = jGetText j "id")
      (fun db' j' e' h' => stepProject_error_shape now db' j' e' h') batch db e he
    exact ⟨hP.1, j, hj, hP.2⟩
  · exact (runBulk_accounting (stepOutreach now) batch db).1
  · have h := (runBulk_accounting (stepOutreach now) batch db).2
    rw [countSkipped_outreach_zero now batch db] at h
    unfold sync_creator_outreach_bulk
    omega
  · intro e he
    obtain ⟨j, hj, hP⟩ := runBulk_errors_shape (stepOutreach now)
      (fun j e => e.idKey = "creator_id" ∧ e.entityId = jGetText j "creator_id")
      (fun db' j' e' h' => stepOutreach_error_shape now db' j' e' h') batch db e he
    exact ⟨hP.1, j, hj, hP.2⟩

/-! ## Hash-guard analysis of the creator and project upserts -/

theorem payloadId_of_cast (j : Jval) (i : Int)
    (h : castIntPg (jGetText j "id") = .ok (some i)) : payloadId j = some i := by
  unfold payloadId
  rw [h]

/-- Inversion of one creator guarded block: a skip means the stored row
already carries a hash the incoming one does not differ from; a write
carries the incoming hash and the parsed id. -/
theorem stepCreatorCore_cases (now : String) (j : Jval) (idOpt : Option Int)
    (found : Option CreatorRow) (res : Option (CreatorRow × WriteKind))
    (h : stepCreatorCore now j idOpt found = .ok res) :
    (res = none ∧ ∃ old hv, found = some old ∧ old.data_hash = some hv ∧
      sqlTextNe (some hv) (jGetText j "data_hash") = false) ∨
    (∃ i row, idOpt = some i ∧ row.data_hash = jGetText j "data_hash" ∧
      ((∃ old, found = some old ∧ res = some (row, .updated) ∧ row.id = old.id) ∨
       (found = none ∧ res = some (row, .inserted) ∧ row.id = i))) := by
  unfold stepCreatorCore at h
  by_cases hguard : (!found.isSome || (found.bind fun r => r.data_hash).isNone ||
      sqlTextNe (found.bind fun r => r.data_hash) (jGetText j "data_hash")) = true
  · rw [if_pos hguard] at h
    simp only [Bind.bind, Except.bind, pure, Except.pure] at h
    cases c1 : castBoolPg (jGetText j "is_registered") with
    | error e => simp only [c1] at h; exact Except.noConfusion h
    | ok v1 =>
    simp only [c1] at h
    cases c2 : castBoolPg (jGetText j "is_email_verified") with
    | error e => simp only [c2] at h; exact Except.noConfusion h
    | ok v2 =>
    simp only [c2] at h
    cases c3 : castBoolPg (jGetText j "is_superbacker") with
    | error e => simp only [c3] at h; exact Except.noConfusion h
    | ok v3 =>
    simp only [c3] at h
    cases c4 : castBoolPg (jGetText j "has_admin_message_badge") with
    | error e => simp only [c4] at h; exact Except.noConfusion h
    | ok v4 =>
    simp only [c4] at h
    cases c5 : castBoolPg (jGetText j "ppo_has_action") with
    | error e => simp only [c5] at h; exact Except.noConfusion h
    | ok v5 =>
    simp only [c5] at h
    cases c6 : castIntPg (jGetText j "backing_action_count") with
    | error e => simp only [c6] at h; exact Except.noConfusion h
    | ok v6 =>
    simp only [c6] at h
    cases idOpt with
    | none =>
      simp only [throw, throwThe, MonadExceptOf.throw] at h
      exact Except.noConfusion h
    | some i =>
    cases hname : jGetText j "name" with
    | none =>
      rw [hname] at h
      simp only [throw, throwThe, MonadExceptOf.throw] at h
      exact Except.noConfusion h
    | some nm =>
    rw [hname] at h
    cases found with
    | some old =>
      injection h with h
      subst h
      refine Or.inr ⟨i, _, rfl, ?_, Or.inl ⟨old, rfl, rfl, rfl⟩⟩
      rfl
    | none =>
      injection h with h
      subst h
      refine Or.inr ⟨i, _, rfl, ?_, Or.inr ⟨rfl, rfl, rfl⟩⟩
      rfl
  · rw [if_neg hguard] at h
    injection h with h
    subst h
    simp only [Bool.or_eq_true, not_or, Bool.not_eq_true] at hguard
    obtain ⟨⟨h1, h2⟩, h3⟩ := hguard
    have hfound : ∃ old, found = some old := by
      cases found with
      | none => simp at h1
      | some old => exact ⟨old, rfl⟩
    obtain ⟨old, rfl⟩ := hfound
    have hhash : ∃ hv, old.data_hash = some hv := by
      cases hh : old.data_hash with
      | none => rw [Option.some_bind] at h2; rw [hh] at h2; simp [Option.isNone] at h2
      | some hv => exact ⟨hv, rfl⟩
    obtain ⟨hv, hhv⟩ := hhash
    refine Or.inl ⟨rfl, old, hv, rfl, hhv, ?_⟩
    rw [Option.some_bind, hhv] at h3
    exact h3

/-- The guarded block's outcome class (error with a given message, skip,
or write of some kind) does not depend on the call timestamp: the clock
only enters the written row. -/
theorem stepCreatorCore_now_agnostic (now1 now2 : String) (j : Jval)
    (idOpt : Option Int) (found : Option CreatorRow) :
    (∃ e, stepCreatorCore now1 j idOpt found = .error e ∧
      stepCreatorCore now2 j idOpt found = .error e) ∨
    (stepCreatorCore now1 j idOpt found = .ok none ∧
      stepCreatorCore now2 j idOpt found = .ok none) ∨
    (∃ r1 r2 k, stepCreatorCore now1 j idOpt found = .ok (some (r1, k)) ∧
      stepCreatorCore now2 j idOpt found = .ok (some (r2, k))) := by
  unfold stepCreatorCore
  by_cases hguard : (!found.isSome || (found.bind fun r => r.data_hash).isNone ||
      sqlTextNe (found.bind fun r => r.data_hash) (jGetText j "data_hash")) = true
  · rw [if_pos hguard, if_pos hguard]
    simp only [Bind.bind, Except.bind, pure, Except.pure]
    cases c1 : castBoolPg (jGetText j "is_registered") with
    | error e => exact Or.inl ⟨e, rfl, rfl⟩
    | ok v1 =>
    cases c2 : castBoolPg (jGetText j "is_email_verified") with
    | error e => exact Or.inl ⟨e, rfl, rfl⟩
    | ok v2 =>
    cases c3 : castBoolPg (jGetText j "is_superbacker") with
    | error e => exact Or.inl ⟨e, rfl, rfl⟩
    | ok v3 =>
    cases c4 : castBoolPg (jGetText j "has_admin_message_badge") with
    | error e => exact Or.inl ⟨e, rfl, rfl⟩
    | ok v4 =>
    cases c5 : castBoolPg (jGetText j "ppo_has_action") with
    | error e => exact Or.inl ⟨e, rfl, rfl⟩
    | ok v5 =>
    cases c6 : castIntPg (jGetText j "backing_action_count") with
    | error e => exact Or.inl ⟨e, rfl, rfl⟩
    | ok v6 =>
    cases idOpt with
    | none => exact Or.inl ⟨_, rfl, rfl⟩
    | some i =>
    cases hname : jGetText j "name" with
    | none => exact Or.inl ⟨_, rfl, rfl⟩
    | some nm =>
    cases found with
    | some old => exact Or.inr (Or.inr ⟨_, _, .updated, rfl, rfl⟩)
    | none => exact Or.inr (Or.inr ⟨_, _, .inserted, rfl, rfl⟩)
  · rw [if_neg hguard, if_neg hguard]
    exact Or.inr (Or.inl ⟨rfl, rfl⟩)

theorem find?_append_single (q : α → Bool) (l : List α) (x : α)
    (hx : q x = false) : (l ++ [x]).find? q = l.find? q := by
  cases hl : l.find? q with
  | some r =>
    rw [find?_append_left _ _ _ (by simp [hl])]
    exact hl
  | none =>
    rw [find?_append_none _ _ _ hl]
    simp [List.find?, hx, hl]

/-- What one upsert_creators_bulk iteration can do to the creators
table: nothing (hash skip), or write exactly the row of the payload's
id, carrying the payload's data_hash, leaving every other id alone; the
other tables are never touched. -/
theorem stepCreator_write_analysis (now : String) (db : Db) (j : Jval)
    (db' : Db) (k : WriteKind) (h : stepCreator now db j = .ok (db', k)) :
    db'.projects = db.projects ∧ db'.outreach = db.outreach ∧
    ((k = .skipped ∧ db' = db ∧
      ∃ i old hv, castIntPg (jGetText j "id") = .ok (some i) ∧
        findCreator db i = some old ∧ old.data_hash = some hv ∧
        sqlTextNe (some hv) (jGetText j "data_hash") = false) ∨
     (∃ i row, castIntPg (jGetText j "id") = .ok (some i) ∧ row.id = i ∧
        row.data_hash = jGetText j "data_hash" ∧
        findCreator db' i = some row ∧
        (∀ i', i' ≠ i → findCreator db' i' = findCreator db i'))) := by
  unfold stepCreator at h
  cases hc : castIntPg (jGetText j "id") with
  | error e => simp only [hc] at h; exact Except.noConfusion h
  | ok idOpt =>
  simp only [hc] at h
  cases hcore : stepCreatorCore now j idOpt (idOpt.bind (findCreator db)) with
  | error e => simp only [hcore] at h; exact Except.noConfusion h
  | ok res =>
  simp only [hcore] at h
  rcases stepCreatorCore_cases now j idOpt (idOpt.bind (findCreator db)) res hcore with
    ⟨rfl, old, hv, hfound, hhv, hne⟩ | ⟨i, row, hio, hhash, hinner⟩
  · obtain ⟨i, hio, hfi⟩ : ∃ i, idOpt = some i ∧ findCreator db i = some old := by
      cases idOpt with
      | none => exact Option.noConfusion hfound
      | some i =>
        rw [Option.some_bind] at hfound
        exact ⟨i, rfl, hfound⟩
    subst hio
    injection h with h
    injection h with h1 h2
    exact ⟨h1 ▸ rfl, h1 ▸ rfl, Or.inl ⟨h2.symm, h1.symm, i, old, hv, rfl, hfi, hhv, hne⟩⟩
  · subst hio
    rw [Option.some_bind] at hcore
    rcases hinner with ⟨old, hfound, rfl, hrowid⟩ | ⟨hfound, rfl, hrowid⟩
    · rw [Option.some_bind] at hfound
      have holdid : old.id = i := by
        have := List.find?_some hfound
        simpa using this
      injection h with h
      injection h with h1 h2
      subst h1
      have hpred : (fun r : CreatorRow => some r.id == some i) =
          (fun r : CreatorRow => r.id == i) := by
        funext r
        rfl
      refine ⟨rfl, rfl, Or.inr ⟨i, row, rfl, hrowid.trans holdid, hhash, ?_, ?_⟩⟩
      · unfold findCreator
        simp only [hpred]
        exact find?_listUpdate_self _ _ _ (by unfold findCreator at hfound; simp [hfound])
          (by simp [hrowid.trans holdid])
      · intro i' hi'
        unfold findCreator
        simp only [hpred]
        refine find?_listUpdate_other _ _ _ _ ?_ ?_
        · simp [hrowid.trans holdid]
          omega
        · intro x _ hx
          have : x.id = i := by simpa using hx
          simp [this]
          omega
    · rw [Option.some_bind] at hfound
      injection h with h
      injection h with h1 h2
      subst h1
      refine ⟨rfl, rfl, Or.inr ⟨i, row, rfl, hrowid, hhash, ?_, ?_⟩⟩
      · unfold findCreator
        rw [find?_append_none _ _ _ hfound]
        simp [List.find?, hrowid]
      · intro i' hi'
        unfold findCreator
        exact find?_append_single _ _ _ (by simp [hrowid]; omega)

/-- When the stored row of the payload's id already carries the incoming
(non-null) data_hash, the guarded block skips: no write, no count. -/
theorem stepCreator_stable (now' : String) (db : Db) (j : Jval) (i : Int) (row : CreatorRow)
    (hc : castIntPg (jGetText j "id") = .ok (some i))
    (hf : findCreator db i = some row)
    (hh : row.data_hash = jGetText j "data_hash")
    (hs : (jGetText j "data_hash").isSome) :
    stepCreator now' db j = .ok (db, .skipped) := by
  have hcore : stepCreatorCore now' j (some i) (some row) = .ok none := by
    unfold stepCreatorCore
    rw [if_neg ?grd]
    · rfl
    case grd =>
      obtain ⟨hv, hhv⟩ := Option.isSome_iff_exists.mp hs
      simp only [Option.some_bind]
      rw [hh, hhv]
      simp [sqlTextNe]
  simp only [stepCreator, hc, Option.some_bind, hf, hcore]

theorem cast_of_payloadId (j : Jval) (i : Int) (h : payloadId j = some i) :
    castIntPg (jGetText j "id") = .ok (some i) := by
  unfold payloadId at h
  cases hc : castIntPg (jGetText j "id") with
  | error e => rw [hc] at h; exact Option.noConfusion h
  | ok o =>
    cases o with
    | none => rw [hc] at h; exact Option.noConfusion h
    | some i' =>
      rw [hc] at h
      injection h with h
      rw [h]

/-- A failing creator payload fails identically at any time and against
any table state that agrees on its id's row. -/
theorem stepCreator_error_congr (now1 now2 : String) (db1 db2 : Db) (j : Jval) (e : ErrEntry)
    (h : stepCreator now1 db1 j = .error e)
    (hsame : ∀ i, castIntPg (jGetText j "id") = .ok (some i) →
      findCreator db2 i = findCreator db1 i) :
    stepCreator now2 db2 j = .error e := by
  unfold stepCreator at h ⊢
  cases hc : castIntPg (jGetText j "id") with
  | error e1 =>
    simp only [hc] at h ⊢
    exact h
  | ok idOpt =>
    simp only [hc] at h ⊢
    have hfound : idOpt.bind (findCreator db2) = idOpt.bind (findCreator db1) := by
      cases idOpt with
      | none => rfl
      | some i =>
        simp only [Option.some_bind]
        exact hsame i hc
    rw [hfound]
    rcases stepCreatorCore_now_agnostic now1 now2 j idOpt (idOpt.bind (findCreator db1)) with
      ⟨e1, he1, he2⟩ | ⟨he1, he2⟩ | ⟨r1, r2, k, he1, he2⟩
    · simp only [he1] at h
      simp only [he2]
      exact h
    · simp only [he1] at h
      exact Except.noConfusion h
    · cases k <;> simp only [he1] at h <;> exact Except.noConfusion h

/-- Ids no payload of the batch parses to are untouched by the whole
creators run. -/
theorem runCreators_find_frame (now : String) :
    ∀ (batch : List Jval) (db : Db) (i : Int),
    (∀ j ∈ batch, payloadId j ≠ some i) →
    findCreator (runBulk (stepCreator now) db batch).1 i = findCreator db i := by
  intro batch
  induction batch with
  | nil => intro db i _; rfl
  | cons j rest ih =>
    intro db i hno
    cases hstep : stepCreator now db j with
    | ok p =>
      obtain ⟨db1, k⟩ := p
      obtain ⟨_, _, hcases⟩ := stepCreator_write_analysis now db j db1 k hstep
      have hrest := ih db1 i (fun j' hj' => hno j' (List.mem_cons_of_mem _ hj'))
      rcases hcases with ⟨_, rfl, _⟩ | ⟨i0, row, hc0, _, _, _, hframe⟩
      · simpa [runBulk, hstep] using hrest
      · have hne : i ≠ i0 := by
          intro hcontra
          exact hno j (List.mem_cons_self _ _) (hcontra ▸ payloadId_of_cast j i0 hc0)
        have : findCreator (runBulk (stepCreator now) db1 rest).1 i = findCreator db i := by
          rw [hrest]
          exact hframe i hne
        simpa [runBulk, hstep] using this
    | error e =>
      have hrest := ih db i (fun j' hj' => hno j' (List.mem_cons_of_mem _ hj'))
      simpa [runBulk, hstep] using hrest

theorem sqlTextNe_false_eq (a b : String)
    (h : sqlTextNe (some a) (some b) = false) : a = b := by
  simpa [sqlTextNe] using h

/-- After one upsert_creators_bulk run over a batch whose payloads all
carry a data_hash and pairwise distinct ids, every payload of the batch
is settled: replaying it (at any time) skips or fails, never writes. -/
theorem upsert_creators_settled (now now' : String) :
    ∀ (batch : List Jval) (db : Db),
    (∀ j ∈ batch, (jGetText j "data_hash").isSome) →
    (batch.filterMap payloadId).Nodup →
    ∀ j ∈ batch,
      stepCreator now' (runBulk (stepCreator now) db batch).1 j =
        .ok ((runBulk (stepCreator now) db batch).1, .skipped) ∨
      ∃ e, stepCreator now' (runBulk (stepCreator now) db batch).1 j = .error e := by
  intro batch
  induction batch with
  | nil =>
    intro db _ _ j hj
    exact absurd hj (List.not_mem_nil j)
  | cons x rest ih =>
    intro db hhash hnodup j hj
    have hnodup_rest : (rest.filterMap payloadId).Nodup := by
      rw [List.filterMap_cons] at hnodup
      cases hpx : payloadId x with
      | none => rw [hpx] at hnodup; exact hnodup
      | some i => rw [hpx] at hnodup; exact hnodup.of_cons
    have hnotin : ∀ i, payloadId x = some i → ∀ j' ∈ rest, payloadId j' ≠ some i := by
      intro i hpx j' hj' hpj'
      rw [List.filterMap_cons, hpx] at hnodup
      exact (List.nodup_cons.mp hnodup).1 (List.mem_filterMap.mpr ⟨j', hj', hpj'⟩)
    have hhash_rest : ∀ j' ∈ rest, (jGetText j' "data_hash").isSome :=
      fun j' hj' => hhash j' (List.mem_cons_of_mem _ hj')
    cases hstep : stepCreator now db x with
    | ok p =>
      obtain ⟨db1, k⟩ := p
      have hfin : (runBulk (stepCreator now) db (x :: rest)).1 =
          (runBulk (stepCreator now) db1 rest).1 := by
        simp [runBulk, hstep]
      rcases List.mem_cons.mp hj with rfl | hjr
      · -- j is the head payload: its row is settled after its own step
        obtain ⟨_, _, hcases⟩ := stepCreator_write_analysis now db j db1 k hstep
        rcases hcases with ⟨hk, rfl, i, old, hv, hc, hfi, hoh, hne⟩ |
          ⟨i, row, hc, hrowid, hrowhash, hfind1, hframe⟩
        · obtain ⟨hvj, hhvj⟩ := Option.isSome_iff_exists.mp (hhash j (List.mem_cons_self _ _))
          have : hv = hvj := sqlTextNe_false_eq hv hvj (by rw [hhvj] at hne; exact hne)
          subst this
          have hfinal : findCreator (runBulk (stepCreator now) db1 rest).1 i =
              some old := by
            rw [runCreators_find_frame now rest db1 i
              (hnotin i (payloadId_of_cast j i hc)), hfi]
          rw [hfin]
          exact Or.inl (stepCreator_stable now' _ j i old hc hfinal
            (by rw [hoh, hhvj]) (by rw [hhvj]; rfl))
        · have hfinal : findCreator (runBulk (stepCreator now) db1 rest).1 i =
              some row := by
            rw [runCreators_find_frame now rest db1 i
              (hnotin i (payloadId_of_cast j i hc)), hfind1]
          rw [hfin]
          exact Or.inl (stepCreator_stable now' _ j i row hc hfinal hrowhash
            (hhash j (List.mem_cons_self _ _)))
      · -- j is in the tail: the inductive hypothesis applies from db1
        rw [hfin]
        exact ih db1 hhash_rest hnodup_rest j hjr
    | error e =>
      have hfin : (runBulk (stepCreator now) db (x :: rest)).1 =
          (runBulk (stepCreator now) db rest).1 := by
        simp [runBulk, hstep]
      rcases List.mem_cons.mp hj with rfl | hjr
      · rw [hfin]
        refine Or.inr ⟨e, stepCreator_error_congr now now' db _ j e hstep ?_⟩
        intro i hc
        exact runCreators_find_frame now rest db i (hnotin i (payloadId_of_cast j i hc))
      · rw [hfin]
        exact ih db hhash_rest hnodup_rest j hjr

/-- Inversion of one project guarded block. -/
theorem stepProjectCore_cases (now : String) (j : Jval) (idOpt : Option Int)
    (found : Option ProjectRow) (creatorOk : Int → Bool)
    (res : Option (ProjectRow × WriteKind))
    (h : stepProjectCore now j idOpt found creatorOk = .ok res) :
    (res = none ∧ ∃ old hv, found = some old ∧ old.data_hash = some hv ∧
      sqlTextNe (some hv) (jGetText j "data_hash") = false) ∨
    (∃ i row, idOpt = some i ∧ row.data_hash = jGetText j "data_hash" ∧
      ((∃ old, found = some old ∧ res = some (row, .updated) ∧ row.id = old.id) ∨
       (found = none ∧ res = some (row, .inserted) ∧ row.id = i))) := by
  unfold stepProjectCore at h
  by_cases hguard : (!found.isSome || (found.bind fun r => r.data_hash).isNone ||
      sqlTextNe (found.bind fun r => r.data_hash) (jGetText j "data_hash")) = true
  · rw [if_pos hguard] at h
    simp only [Bind.bind, Except.bind, pure, Except.pure] at h
    cases c1 : castIntPg (jGetText j "creator_id") with
    | error e => simp only [c1] at h; exact Except.noConfusion h
    | ok v1 =>
    simp only [c1] at h
    cases c2 : castNumericPg (jGetText j "goal") with
    | error e => simp only [c2] at h; exact Except.noConfusion h
    | ok v2 =>
    simp only [c2] at h
    cases c3 : castNumericPg (jGetText j "pledged") with
    | error e => simp only [c3] at h; exact Except.noConfusion h
    | ok v3 =>
    simp only [c3] at h
    cases c4 : castIntPg (jGetText j "backers_count") with
    | error e => simp only [c4] at h; exact Except.noConfusion h
    | ok v4 =>
    simp only [c4] at h
    cases idOpt with
    | none =>
      simp only [throw, throwThe, MonadExceptOf.throw] at h
      exact Except.noConfusion h
    | some i =>
    cases m1 : jGetText j "slug" with
    | none =>
      rw [m1] at h
      simp only [throw, throwThe, MonadExceptOf.throw] at h
      exact Except.noConfusion h
    | some slugv =>
    rw [m1] at h
    cases m2 : jGetText j "name" with
    | none =>
      rw [m2] at h
      simp only [throw, throwThe, MonadExceptOf.throw] at h
      exact Except.noConfusion h
    | some namev =>
    rw [m2] at h
    cases v2 with
    | none =>
      simp only [throw, throwThe, MonadExceptOf.throw] at h
      exact Except.noConfusion h
    | some goalv =>
    cases m3 : jGetText j "currency" with
    | none =>
      rw [m3] at h
      simp only [throw, throwThe, MonadExceptOf.throw] at h
      exact Except.noConfusion h
    | some curv =>
    rw [m3] at h
    cases m4 : jGetText j "country" with
    | none =>
      rw [m4] at h
      simp only [throw, throwThe, MonadExceptOf.throw] at h
      exact Except.noConfusion h
    | some countryv =>
    rw [m4] at h
    cases m5 : jGetText j "state" with
    | none =>
      rw [m5] at h
      simp only [throw, throwThe, MonadExceptOf.throw] at h
      exact Except.noConfusion h
    | some statev =>
    rw [m5] at h
    cases m6 : castTimestampPg (jGetText j "created_at_ks") with
    | none =>
      rw [m6] at h
      simp only [throw, throwThe, MonadExceptOf.throw] at h
      exact Except.noConfusion h
    | some cak =>
    rw [m6] at h
    cases v1 with
    | none =>
      simp only [throw, throwThe, MonadExceptOf.throw] at h
      exact Except.noConfusion h
    | some cid =>
    cases found with
    | some old =>
      dsimp only at h
      cases hfk : (cid != old.creator_id && !creatorOk cid) with
      | true =>
        rw [hfk] at h
        simp only [if_true, throw, throwThe, MonadExceptOf.throw] at h
        exact Except.noConfusion h
      | false =>
        rw [hfk] at h
        simp only [Bool.false_eq_true, if_false] at h
        injection h with h
        subst h
        refine Or.inr ⟨i, _, rfl, ?_, Or.inl ⟨old, rfl, rfl, rfl⟩⟩
        rfl
    | none =>
      dsimp only at h
      cases hfk : creatorOk cid with
      | true =>
        rw [hfk] at h
        simp only [if_true] at h
        injection h with h
        subst h
        refine Or.inr ⟨i, _, rfl, ?_, Or.inr ⟨rfl, rfl, rfl⟩⟩
        rfl
      | false =>
        rw [hfk] at h
        simp only [Bool.false_eq_true, if_false, throw, throwThe,
          MonadExceptOf.throw] at h
        exact Except.noConfusion h
  · rw [if_neg hguard] at h
    injection h with h
    subst h
    simp only [Bool.or_eq_true, not_or, Bool.not_eq_true] at hguard
    obtain ⟨⟨h1, h2⟩, h3⟩ := hguard
    have hfound : ∃ old, found = some old := by
      cases found with
      | none => simp at h1
      | some old => exact ⟨old, rfl⟩
    obtain ⟨old, rfl⟩ := hfound
    have hhash : ∃ hv, old.data_hash = some hv := by
      cases hh : old.data_hash with
      | none => rw [Option.some_bind] at h2; rw [hh] at h2; simp [Option.isNone] at h2
      | some hv => exact ⟨hv, rfl⟩
    obtain ⟨hv, hhv⟩ := hhash
    refine Or.inl ⟨rfl, old, hv, rfl, hhv, ?_⟩
    rw [Option.some_bind, hhv] at h3
    exact h3

/-- The project guarded block's outcome class does not depend on the
call timestamp. -/
theorem stepProjectCore_now_agnostic (now1 now2 : String) (j : Jval)
    (idOpt : Option Int) (found : Option ProjectRow) (creatorOk : Int → Bool) :
    (∃ e, stepProjectCore now1 j idOpt found creatorOk = .error e ∧
      stepProjectCore now2 j idOpt found creatorOk = .error e) ∨
    (stepProjectCore now1 j idOpt found creatorOk = .ok none ∧
      stepProjectCore now2 j idOpt found creatorOk = .ok none) ∨
    (∃ r1 r2 k, stepProjectCore now1 j idOpt found creatorOk = .ok (some (r1, k)) ∧
      stepProjectCore now2 j idOpt found creatorOk = .ok (some (r2, k))) := by
  unfold stepProjectCore
  by_cases hguard : (!found.isSome || (found.bind fun r => r.data_hash).isNone ||
      sqlTextNe (found.bind fun r => r.data_hash) (jGetText j "data_hash")) = true
  · rw [if_pos hguard, if_pos hguard]
    simp only [Bind.bind, Except.bind, pure, Except.pure]
    cases c1 : castIntPg (jGetText j "creator_id") with
    | error e => exact Or.inl ⟨e, rfl, rfl⟩
    | ok v1 =>
    cases c2 : castNumericPg (jGetText j "goal") with
    | error e => exact Or.inl ⟨e, rfl, rfl⟩
    | ok v2 =>
    cases c3 : castNumericPg (jGetText j "pledged") with
    | error e => exact Or.inl ⟨e, rfl, rfl⟩
    | ok v3 =>
    cases c4 : castIntPg (jGetText j "backers_count") with
    | error e => exact Or.inl ⟨e, rfl, rfl⟩
    | ok v4 =>
    cases idOpt with
    | none => exact Or.inl ⟨_, rfl, rfl⟩
    | some i =>
    cases m1 : jGetText j "slug" with
    | none => exact Or.inl ⟨_, rfl, rfl⟩
    | some slugv =>
    cases m2 : jGetText j "name" with
    | none => exact Or.inl ⟨_, rfl, rfl⟩
    | some namev =>
    cases v2 with
    | none => exact Or.inl ⟨_, rfl, rfl⟩
    | some goalv =>
    cases m3 : jGetText j "currency" with
    | none => exact Or.inl ⟨_, rfl, rfl⟩
    | some curv =>
    cases m4 : jGetText j "country" with
    | none => exact Or.inl ⟨_, rfl, rfl⟩
    | some countryv =>
    cases m5 : jGetText j "state" with
    | none => exact Or.inl ⟨_, rfl, rfl⟩
    | some statev =>
    cases m6 : castTimestampPg (jGetText j "created_at_ks") with
    | none => exact Or.inl ⟨_, rfl, rfl⟩
    | some cak =>
    cases v1 with
    | none => exact Or.inl ⟨_, rfl, rfl⟩
    | some cid =>
    cases found with
    | some old =>
      dsimp only
      cases hfk : (cid != old.creator_id && !creatorOk cid) with
      | true => simp only [hfk, if_true]; exact Or.inl ⟨_, rfl, rfl⟩
      | false =>
        simp only [hfk, Bool.false_eq_true, if_false]
        exact Or.inr (Or.inr ⟨_, _, .updated, rfl, rfl⟩)
    | none =>
      dsimp only
      cases hfk : creatorOk cid with
      | true => simp only [hfk, if_true]; exact Or.inr (Or.inr ⟨_, _, .inserted, rfl, rfl⟩)
      | false =>
        simp only [hfk, Bool.false_eq_true, if_false]
        exact Or.inl ⟨_, rfl, rfl⟩
  · rw [if_neg hguard, if_neg hguard]
    exact Or.inr (Or.inl ⟨rfl, rfl⟩)

/-- What one upsert_projects_bulk iteration can do to the projects
table; the creators and outreach tables are never touched. -/
theorem stepProject_write_analysis (now : String) (db : Db) (j : Jval)
    (db' : Db) (k : WriteKind) (h : stepProject now db j = .ok (db', k)) :
    db'.creators = db.creators ∧ db'.outreach = db.outreach ∧
    ((k = .skipped ∧ db' = db ∧
      ∃ i old hv, castIntPg (jGetText j "id") = .ok (some i) ∧
        findProject db i = some old ∧ old.data_hash = some hv ∧
        sqlTextNe (some hv) (jGetText j "data_hash") = false) ∨
     (∃ i row, castIntPg (jGetText j "id") = .ok (some i) ∧ row.id = i ∧
        row.data_hash = jGetText j "data_hash" ∧
        findProject db' i = some row ∧
        (∀ i', i' ≠ i → findProject db' i' = findProject db i'))) := by
  unfold stepProject at h
  cases hc : castIntPg (jGetText j "id") with
  | error e => simp only [hc] at h; exact Except.noConfusion h
  | ok idOpt =>
  simp only [hc] at h
  cases hcore : stepProjectCore now j idOpt (idOpt.bind (findProject db))
      (fun c => (findCreator db c).isSome) with
  | error e => simp only [hcore] at h; exact Except.noConfusion h
  | ok res =>
  simp only [hcore] at h
  rcases stepProjectCore_cases now j idOpt (idOpt.bind (findProject db)) _ res hcore with
    ⟨rfl, old, hv, hfound, hhv, hne⟩ | ⟨i, row, hio, hhash, hinner⟩
  · obtain ⟨i, hio, hfi⟩ : ∃ i, idOpt = some i ∧ findProject db i = some old := by
      cases idOpt with
      | none => exact Option.noConfusion hfound
      | some i =>
        rw [Option.some_bind] at hfound
        exact ⟨i, rfl, hfound⟩
    subst hio
    injection h with h
    injection h with h1 h2
    exact ⟨h1 ▸ rfl, h1 ▸ rfl, Or.inl ⟨h2.symm, h1.symm, i, old, hv, rfl, hfi, hhv, hne⟩⟩
  · subst hio
    rcases hinner with ⟨old, hfound, rfl, hrowid⟩ | ⟨hfound, rfl, hrowid⟩
    · rw [Option.some_bind] at hfound
      have holdid : old.id = i := by
        have := List.find?_some hfound
        simpa using this
      injection h with h
      injection h with h1 h2
      subst h1
      have hpred : (fun r : ProjectRow => some r.id == some i) =
          (fun r : ProjectRow => r.id == i) := by
        funext r
        rfl
      refine ⟨rfl, rfl, Or.inr ⟨i, row, rfl, hrowid.trans holdid, hhash, ?_, ?_⟩⟩
      · unfold findProject
        simp only [hpred]
        exact find?_listUpdate_self _ _ _ (by unfold findProject at hfound; simp [hfound])
          (by simp [hrowid.trans holdid])
      · intro i' hi'
        unfold findProject
        simp only [hpred]
        refine find?_listUpdate_other _ _ _ _ ?_ ?_
        · simp [hrowid.trans holdid]
          omega
        · intro x _ hx
          have : x.id = i := by simpa using hx
          simp [this]
          omega
    · rw [Option.some_bind] at hfound
      injection h with h
      injection h with h1 h2
      subst h1
      refine ⟨rfl, rfl, Or.inr ⟨i, row, rfl, hrowid, hhash, ?_, ?_⟩⟩
      · unfold findProject
        rw [find?_append_none _ _ _ hfound]
        simp [List.find?, hrowid]
      · intro i' hi'
        unfold findProject
        exact find?_append_single _ _ _ (by simp [hrowid]; omega)

/-- A project payload whose stored row already carries the incoming
non-null hash skips. -/
theorem stepProject_stable (now' : String) (db : Db) (j : Jval) (i : Int) (row : ProjectRow)
    (hc : castIntPg (jGetText j "id") = .ok (some i))
    (hf : findProject db i = some row)
    (hh : row.data_hash = jGetText j "data_hash")
    (hs : (jGetText j "data_hash").isSome) :
    stepProject now' db j = .ok (db, .skipped) := by
  have hcore : stepProjectCore now' j (some i) (some row)
      (fun c => (findCreator db c).isSome) = .ok none := by
    unfold stepProjectCore
    rw [if_neg ?grd]
    · rfl
    case grd =>
      obtain ⟨hv, hhv⟩ := Option.isSome_iff_exists.mp hs
      simp only [Option.some_bind]
      rw [hh, hhv]
      simp [sqlTextNe]
  simp only [stepProject, hc, Option.some_bind, hf, hcore]

/-- A failing project payload fails identically at any time against any
state agreeing on its id's row and on the creators table. -/
theorem stepProject_error_congr (now1 now2 : String) (db1 db2 : Db) (j : Jval) (e : ErrEntry)
    (h : stepProject now1 db1 j = .error e)
    (hsame : ∀ i, castIntPg (jGetText j "id") = .ok (some i) →
      findProject db2 i = findProject db1 i)
    (hcreators : db2.creators = db1.creators) :
    stepProject now2 db2 j = .error e := by
  unfold stepProject at h ⊢
  cases hc : castIntPg (jGetText j "id") with
  | error e1 =>
    simp only [hc] at h ⊢
    exact h
  | ok idOpt =>
    simp only [hc] at h ⊢
    have hfound : idOpt.bind (findProject db2) = idOpt.bind (findProject db1) := by
      cases idOpt with
      | none => rfl
      | some i =>
        simp only [Option.some_bind]
        exact hsame i hc
    have hok : (fun c => (findCreator db2 c).isSome) =
        (fun c => (findCreator db1 c).isSome) := by
      funext c
      unfold findCreator
      rw [hcreators]
    rw [hfound, hok]
    rcases stepProjectCore_now_agnostic now1 now2 j idOpt (idOpt.bind (findProject db1))
        (fun c => (findCreator db1 c).isSome) with
      ⟨e1, he1, he2⟩ | ⟨he1, he2⟩ | ⟨r1, r2, k, he1, he2⟩
    · simp only [he1] at h
      simp only [he2]
      exact h
    · simp only [he1] at h
      exact Except.noConfusion h
    · cases k <;> simp only [he1] at h <;> exact Except.noConfusion h

/-- Project ids no payload parses to, and the whole creators table, are
untouched by a projects run. -/
theorem runProjects_frame (now : String) :
    ∀ (batch : List Jval) (db : Db),
    (runBulk (stepProject now) db batch).1.creators = db.creators ∧
    ∀ (i : Int), (∀ j ∈ batch, payloadId j ≠ some i) →
      findProject (runBulk (stepProject now) db batch).1 i = findProject db i := by
  intro batch
  induction batch with
  | nil => intro db; exact ⟨rfl, fun i _ => rfl⟩
  | cons j rest ih =>
    intro db
    cases hstep : stepProject now db j with
    | ok p =>
      obtain ⟨db1, k⟩ := p
      obtain ⟨hcr, _, hcases⟩ := stepProject_write_analysis now db j db1 k hstep
      obtain ⟨ihc, ihf⟩ := ih db1
      constructor
      · have : (runBulk (stepProject now) db1 rest).1.creators = db.creators := by
          rw [ihc, hcr]
        simpa [runBulk, hstep] using this
      · intro i hno
        have hrest := ihf i (fun j' hj' => hno j' (List.mem_cons_of_mem _ hj'))
        rcases hcases with ⟨_, rfl, _⟩ | ⟨i0, row, hc0, _, _, _, hframe⟩
        · simpa [runBulk, hstep] using hrest
        · have hne : i ≠ i0 := by
            intro hcontra
            exact hno j (List.mem_cons_self _ _) (hcontra ▸ payloadId_of_cast j i0 hc0)
          have : findProject (runBulk (stepProject now) db1 rest).1 i = findProject db i := by
            rw [hrest]
            exact hframe i hne
          simpa [runBulk, hstep] using this
    | error e =>
      obtain ⟨ihc, ihf⟩ := ih db
      constructor
      · simpa [runBulk, hstep] using ihc
      · intro i hno
        have hrest := ihf i (fun j' hj' => hno j' (List.mem_cons_of_mem _ hj'))
        simpa [runBulk, hstep] using hrest

/-- After one upsert_projects_bulk run over a batch of hash-carrying,
distinct-id payloads, every payload is settled. -/
theorem upsert_projects_settled (now now' : String) :
    ∀ (batch : List Jval) (db : Db),
    (∀ j ∈ batch, (jGetText j "data_hash").isSome) →
    (batch.filterMap payloadId).Nodup →
    ∀ j ∈ batch,
      stepProject now' (runBulk (stepProject now) db batch).1 j =
        .ok ((runBulk (stepProject now) db batch).1, .skipped) ∨
      ∃ e, stepProject now' (runBulk (stepProject now) db batch).1 j = .error e := by
  intro batch
  induction batch with
  | nil =>
    intro db _ _ j hj
    exact absurd hj (List.not_mem_nil j)
  | cons x rest ih =>
    intro db hhash hnodup j hj
    have hnodup_rest : (rest.filterMap payloadId).Nodup := by
      rw [List.filterMap_cons] at hnodup
      cases hpx : payloadId x with
      | none => rw [hpx] at hnodup; exact hnodup
      | some i => rw [hpx] at hnodup; exact hnodup.of_cons
    have hnotin : ∀ i, payloadId x = some i → ∀ j' ∈ rest, payloadId j' ≠ some i := by
      intro i hpx j' hj' hpj'
      rw [List.filterMap_cons, hpx] at hnodup
      exact (List.nodup_cons.mp hnodup).1 (List.mem_filterMap.mpr ⟨j', hj', hpj'⟩)
    have hhash_rest : ∀ j' ∈ rest, (jGetText j' "data_hash").isSome :=
      fun j' hj' => hhash j' (List.mem_cons_of_mem _ hj')
    cases hstep : stepProject now db x with
    | ok p =>
      obtain ⟨db1, k⟩ := p
      have hfin : (runBulk (stepProject now) db (x :: rest)).1 =
          (runBulk (stepProject now) db1 rest).1 := by
        simp [runBulk, hstep]
      rcases List.mem_cons.mp hj with rfl | hjr
      · obtain ⟨_, _, hcases⟩ := stepProject_write_analysis now db j db1 k hstep
        rcases hcases with ⟨hk, rfl, i, old, hv, hc, hfi, hoh, hne⟩ |
          ⟨i, row, hc, hrowid, hrowhash, hfind1, hframe⟩
        · obtain ⟨hvj, hhvj⟩ := Option.isSome_iff_exists.mp (hhash j (List.mem_cons_self _ _))
          have hveq : hv = hvj := sqlTextNe_false_eq hv hvj (by rw [hhvj] at hne; exact hne)
          subst hveq
          have hfinal : findProject (runBulk (stepProject now) db1 rest).1 i =
              some old := by
            rw [(runProjects_frame now rest db1).2 i
              (hnotin i (payloadId_of_cast j i hc)), hfi]
          rw [hfin]
          exact Or.inl (stepProject_stable now' _ j i old hc hfinal
            (by rw [hoh, hhvj]) (by rw [hhvj]; rfl))
        · have hfinal : findProject (runBulk (stepProject now) db1 rest).1 i =
              some row := by
            rw [(runProjects_frame now rest db1).2 i
              (hnotin i (payloadId_of_cast j i hc)), hfind1]
          rw [hfin]
          exact Or.inl (stepProject_stable now' _ j i row hc hfinal hrowhash
            (hhash j (List.mem_cons_self _ _)))
      · rw [hfin]
        exact ih db1 hhash_rest hnodup_rest j hjr
    | error e =>
      have hfin : (runBulk (stepProject now) db (x :: rest)).1 =
          (runBulk (stepProject now) db rest).1 := by
        simp [runBulk, hstep]
      rcases List.mem_cons.mp hj with rfl | hjr
      · rw [hfin]
        refine Or.inr ⟨e, stepProject_error_congr now now' db _ j e hstep ?_ ?_⟩
        · intro i hc
          exact (runProjects_frame now rest db).2 i (hnotin i (payloadId_of_cast j i hc))
        · exact (runProjects_frame now rest db).1
      · rw [hfin]
        exact ih db hhash_rest hnodup_rest j hjr

/-- C3 (amended): for snapshots carrying a non-null data_hash equal to
the stored one, the bulk upserts perform no write and count nothing; and
a batch of hash-carrying snapshots with pairwise distinct ids is
idempotent: replaying it (at any later time) leaves the state identical
and reports zero inserted and zero updated.  (Payloads with a null
data_hash are rewritten and recounted on every run, and duplicate ids
within one batch defeat the guard, so both provisos are necessary.) -/
theorem hash_guard_idempotence :
    (∀ (now : String) (db : Db) (j : Jval) (i : Int) (r : CreatorRow) (hv : String),
      castIntPg (jGetText j "id") = .ok (some i) →
      findCreator db i = some r → r.data_hash = some hv →
      jGetText j "data_hash" = some hv →
      upsert_creators_bulk now db [j] = (db, ⟨0, 0, 1, []⟩)) ∧
    (∀ (now : String) (db : Db) (j : Jval) (i : Int) (r : ProjectRow) (hv : String),
      castIntPg (jGetText j "id") = .ok (some i) →
      findProject db i = some r → r.data_hash = some hv →
      jGetText j "data_hash" = some hv →
      upsert_projects_bulk now db [j] = (db, ⟨0, 0, 1, []⟩)) ∧
    (∀ (now now' : String) (db : Db) (batch : List Jval),
      (∀ j ∈ batch, (jGetText j "data_hash").isSome) →
      (batch.filterMap payloadId).Nodup →
      (upsert_creators_bulk now' (upsert_creators_bulk now db batch).1 batch).1 =
        (upsert_creators_bulk now db batch).1 ∧
      (upsert_creators_bulk now' (upsert_creators_bulk now db batch).1 batch).2.inserted_count = 0 ∧
      (upsert_creators_bulk now' (upsert_creators_bulk now db batch).1 batch).2.updated_count = 0) ∧
    (∀ (now now' : String) (db : Db) (batch : List Jval),
      (∀ j ∈ batch, (jGetText j "data_hash").isSome) →
      (batch.filterMap payloadId).Nodup →
      (upsert_projects_bulk now' (upsert_projects_bulk now db batch).1 batch).1 =
        (upsert_projects_bulk now db batch).1 ∧
      (upsert_projects_bulk now' (upsert_projects_bulk now db batch).1 batch).2.inserted_count = 0 ∧
      (upsert_projects_bulk now' (upsert_projects_bulk now db batch).1 batch).2.updated_count = 0) := by
  refine ⟨?_, ?_, ?_, ?_⟩
  · intro now db j i r hv hc hf hrh hjh
    have hstable := stepCreator_stable now db j i r hc hf (by rw [hrh, hjh]) (by rw [hjh]; rfl)
    show runBulk (stepCreator now) db [j] = (db, ⟨0, 0, 1, []⟩)
    simp [runBulk, hstable, BulkResult.afterOk]
  · intro now db j i r hv hc hf hrh hjh
    have hstable := stepProject_stable now db j i r hc hf (by rw [hrh, hjh]) (by rw [hjh]; rfl)
    show runBulk (stepProject now) db [j] = (db, ⟨0, 0, 1, []⟩)
    simp [runBulk, hstable, BulkResult.afterOk]
  · intro now now' db batch hhash hnodup
    exact runBulk_stable (stepCreator now') batch (upsert_creators_bulk now db batch).1
      (upsert_creators_settled now now' batch db hhash hnodup)
  · intro now now' db batch hhash hnodup
    exact runBulk_stable (stepProject now') batch (upsert_projects_bulk now db batch).1
      (upsert_projects_settled now now' batch db hhash hnodup)

/-! ## Blocklist, pipeline state, credential pool, view -/

theorem stringLengthZero (s : String) (h : s.length = 0) : s = "" := by
  cases s with
  | mk data =>
    simp only [String.length] at h
    rw [List.length_eq_zero] at h
    rw [h]

theorem coalesce_idem (a b : Option α) : coalesce a (coalesce a b) = coalesce a b := by
  cases a <;> rfl

theorem listUpdate_find_self (p : α → Bool) (l : List α) (x : α)
    (h : l.find? p = some x) : listUpdate p x l = l := by
  induction l with
  | nil => rfl
  | cons y ys ih =>
    cases hy : p y with
    | true =>
      rw [List.find?_cons_of_pos _ hy] at h
      injection h with h
      subst h
      simp [listUpdate, hy]
    | false =>
      rw [List.find?_cons_of_neg _ (by simp [hy])] at h
      simp [listUpdate, hy, ih h]

theorem countKey_listUpdate (l : List BlockedDomainRow) (key : String)
    (new : BlockedDomainRow) (hnd : new.domain = key) (k : String) :
    countKey (listUpdate (fun row => row.domain == key) new l) k = countKey l k := by
  induction l with
  | nil => rfl
  | cons y ys ih =>
    cases hy : (y.domain == key) with
    | true =>
      have hyd : y.domain = key := by simpa using hy
      simp only [listUpdate, hy, if_true]
      unfold countKey
      simp only [List.filter_cons, hnd, hyd]
      cases hk : (key == k) <;> simp [hk]
    | false =>
      simp only [listUpdate, hy, Bool.false_eq_true, if_false]
      unfold countKey
      simp only [List.filter_cons]
      cases hk : (y.domain == k) <;> simp [hk] <;> exact ih

theorem countKey_append_single (t : List BlockedDomainRow) (x : BlockedDomainRow)
    (k : String) :
    countKey (t ++ [x]) k = countKey t k + (if x.domain == k then 1 else 0) := by
  unfold countKey
  rw [List.filter_append]
  cases hx : (x.domain == k) <;> simp [List.filter, hx]

theorem countKey_zero_of_find?_none (t : List BlockedDomainRow) (k : String)
    (h : t.find? (fun row => row.domain == k) = none) : countKey t k = 0 := by
  unfold countKey
  rw [List.find?_eq_none] at h
  rw [List.filter_eq_nil_iff.mpr ?_]
  · rfl
  · intro x hx
    simpa using h x hx

/-- C7: firecrawl_block_domain skips null and all-space domains, is
idempotent for identical calls, stores the key case-normalized so two
case-variants of one domain can never yield two rows, and on conflict
merges reason/source/notes with COALESCE and refreshes updated_at. -/
theorem firecrawl_block_domain_spec :
    (∀ (t : List BlockedDomainRow) (r s n : Option String) (now : String),
      firecrawl_block_domain t none r s n now = t) ∧
    (∀ (t : List BlockedDomainRow) (d : String) (r s n : Option String) (now : String),
      sqlTrim d = "" → firecrawl_block_domain t (some d) r s n now = t) ∧
    (∀ (t : List BlockedDomainRow) (d : Option String) (r s n : Option String) (now : String),
      firecrawl_block_domain (firecrawl_block_domain t d r s n now) d r s n now =
        firecrawl_block_domain t d r s n now) ∧
    (∀ (t : List BlockedDomainRow) (d : String) (r s n : Option String) (now : String)
      (x : BlockedDomainRow),
      x ∈ firecrawl_block_domain t (some d) r s n now → x ∈ t ∨ x.domain = lowerStr d) ∧
    (∀ (t : List BlockedDomainRow) (d : Option String) (r s n : Option String)
      (now : String) (k : String),
      countKey (firecrawl_block_domain t d r s n now) k ≤ max (countKey t k) 1) ∧
    (∀ (t : List BlockedDomainRow) (d : String) (r s n : Option String) (now : String)
      (old : BlockedDomainRow),
      t.find? (fun row => row.domain == lowerStr d) = some old → sqlTrim d ≠ "" →
      firecrawl_block_domain t (some d) r s n now =
        listUpdate (fun row => row.domain == lowerStr d) (blockedMergeRow old r s n now) t) := by
  have hskip : ∀ (t : List BlockedDomainRow) (r s n : Option String) (now : String),
      firecrawl_block_domain t none r s n now = t := fun t r s n now => rfl
  have hempty : ∀ (t : List BlockedDomainRow) (d : String) (r s n : Option String)
      (now : String), sqlTrim d = "" → firecrawl_block_domain t (some d) r s n now = t := by
    intro t d r s n now hd
    unfold firecrawl_block_domain
    dsimp only
    rw [if_pos (by rw [hd]; rfl)]
  have hmerge : ∀ (t : List BlockedDomainRow) (d : String) (r s n : Option String)
      (now : String) (old : BlockedDomainRow),
      t.find? (fun row => row.domain == lowerStr d) = some old → sqlTrim d ≠ "" →
      firecrawl_block_domain t (some d) r s n now =
        listUpdate (fun row => row.domain == lowerStr d) (blockedMergeRow old r s n now) t := by
    intro t d r s n now old hf hd
    unfold firecrawl_block_domain
    dsimp only
    rw [if_neg (by simpa using fun hc => hd (stringLengthZero _ hc))]
    rw [hf]
  refine ⟨hskip, hempty, ?_, ?_, ?_, hmerge⟩
  · intro t d r s n now
    cases d with
    | none => rw [hskip, hskip]
    | some d =>
      by_cases hd : sqlTrim d = ""
      · rw [hempty _ _ _ _ _ _ hd, hempty _ _ _ _ _ _ hd]
      · cases hf : t.find? (fun row => row.domain == lowerStr d) with
        | some old =>
          rw [hmerge t d r s n now old hf hd]
          have hfind2 : (listUpdate (fun row => row.domain == lowerStr d)
              (blockedMergeRow old r s n now) t).find?
              (fun row => row.domain == lowerStr d) = some (blockedMergeRow old r s n now) := by
            refine find?_listUpdate_self _ _ _ (by simp [hf]) ?_
            have := List.find?_some hf
            simpa [blockedMergeRow] using this
          rw [hmerge _ d r s n now (blockedMergeRow old r s n now) hfind2 hd]
          have hsame : blockedMergeRow (blockedMergeRow old r s n now) r s n now =
              blockedMergeRow old r s n now := by
            simp [blockedMergeRow, coalesce_idem]
          rw [hsame]
          exact listUpdate_find_self _ _ _ hfind2
        | none =>
          have hstep1 : firecrawl_block_domain t (some d) r s n now =
              t ++ [{ domain := lowerStr d, reason := r, source := s, notes := n,
                      created_at := now, updated_at := now }] := by
            unfold firecrawl_block_domain
            dsimp only
            rw [if_neg (by simpa using fun hc => hd (stringLengthZero _ hc))]
            rw [hf]
          rw [hstep1]
          have hfind2 : (t ++ [({ domain := lowerStr d, reason := r, source := s, notes := n, created_at := now, updated_at := now } : BlockedDomainRow)]).find?
              (fun r0 => r0.domain == lowerStr d) =
              some ({ domain := lowerStr d, reason := r, source := s, notes := n, created_at := now, updated_at := now } : BlockedDomainRow) := by
            rw [find?_append_none _ _ _ hf]
            simp [List.find?]
          rw [hmerge _ d r s n now _ hfind2 hd]
          have hsame : blockedMergeRow ({ domain := lowerStr d, reason := r, source := s, notes := n, created_at := now, updated_at := now } : BlockedDomainRow) r s n now =
              ({ domain := lowerStr d, reason := r, source := s, notes := n, created_at := now, updated_at := now } : BlockedDomainRow) := by
            simp only [blockedMergeRow]
            cases r <;> cases s <;> cases n <;> rfl
          rw [hsame]
          exact listUpdate_find_self _ _ _ hfind2
  · intro t d r s n now x hx
    unfold firecrawl_block_domain at hx
    dsimp only at hx
    by_cases hd : (sqlTrim d).length = 0
    · rw [if_pos hd] at hx
      exact Or.inl hx
    · rw [if_neg hd] at hx
      cases hf : t.find? (fun row => row.domain == lowerStr d) with
      | some old =>
        rw [hf] at hx
        rcases mem_listUpdate _ _ _ _ hx with rfl | hx'
        · right
          have := List.find?_some hf
          simpa using this
        · exact Or.inl hx'
      | none =>
        rw [hf] at hx
        rcases List.mem_append.mp hx with hx' | hx'
        · exact Or.inl hx'
        · right
          have : x = ({ domain := lowerStr d, reason := r, source := s, notes := n, created_at := now, updated_at := now } : BlockedDomainRow) := by simpa using hx'
          rw [this]
  · intro t d r s n now k
    cases d with
    | none => simp [firecrawl_block_domain]
    | some d =>
      unfold firecrawl_block_domain
      dsimp only
      by_cases hd : (sqlTrim d).length = 0
      · rw [if_pos hd]
        omega
      · rw [if_neg hd]
        cases hf : t.find? (fun row => row.domain == lowerStr d) with
        | some old =>
          have hod : old.domain = lowerStr d := by
            have := List.find?_some hf
            simpa using this
          rw [countKey_listUpdate t (lowerStr d) _ (by simp [blockedMergeRow, hod]) k]
          omega
        | none =>
          rw [countKey_append_single]
          by_cases hk : lowerStr d = k
          · subst hk
            rw [countKey_zero_of_find?_none t _ hf]
            rw [if_pos (beq_self_eq_true (lowerStr d))]
            omega
          · rw [if_neg (by simp [hk])]
            omega

/-- C8: pipeline_state is a singleton. Under the CHECK (id = 1) and the
primary key, every stored row has id 1 and a successful plain insert can
only happen into the empty table; the setup statement creates the
default control row exactly once and is idempotent under re-running. -/
theorem pipeline_state_singleton :
    (∀ (t : List PipelineStateRow) (row : PipelineStateRow) (t' : List PipelineStateRow),
      (∀ x ∈ t, x.id = 1) → insertPipelineState t row = .ok t' →
      row.id = 1 ∧ t = [] ∧ t' = [row]) ∧
    (∀ (t : List PipelineStateRow) (now : String),
      (∀ x ∈ t, x.id = 1) →
      (∀ x ∈ setupPipelineState t now, x.id = 1) ∧
      (setupPipelineState t now).length = max t.length 1) ∧
    (∀ (t : List PipelineStateRow) (now now' : String),
      setupPipelineState (setupPipelineState t now) now' = setupPipelineState t now) := by
  refine ⟨?_, ?_, ?_⟩
  · intro t row t' hall h
    unfold insertPipelineState at h
    by_cases hid : row.id ≠ 1
    · rw [if_pos hid] at h
      exact Except.noConfusion h
    · rw [if_neg hid] at h
      push_neg at hid
      by_cases hdup : ((t.find? (fun r => r.id == row.id)).isSome : Prop)
      · rw [if_pos hdup] at h
        exact Except.noConfusion h
      · rw [if_neg hdup] at h
        injection h with h
        have ht : t = [] := by
          cases t with
          | nil => rfl
          | cons y ys =>
            exfalso
            apply hdup
            have hy : y.id = 1 := hall y (List.mem_cons_self _ _)
            rw [List.find?_cons_of_pos _ (by simp [hy, hid])]
            rfl
        subst ht
        exact ⟨hid, rfl, h.symm⟩
  · intro t now hall
    unfold setupPipelineState
    by_cases hfind : (t.find? (fun r => r.id == 1)).isSome = true
    · rw [if_pos hfind]
      refine ⟨hall, ?_⟩
      have : t.length ≥ 1 := by
        cases t with
        | nil => simp [List.find?] at hfind
        | cons y ys => simp
      omega
    · rw [if_neg hfind]
      have hnone : t.find? (fun r => r.id == 1) = none := by
        cases hopt : t.find? (fun r => r.id == 1) with
        | none => rfl
        | some x => rw [hopt] at hfind; simp at hfind
      have ht : t = [] := by
        cases t with
        | nil => rfl
        | cons y ys =>
          exfalso
          have hy : y.id = 1 := hall y (List.mem_cons_self _ _)
          rw [List.find?_cons_of_pos _ (by simp [hy])] at hnone
          exact Option.noConfusion hnone
      subst ht
      constructor
      · intro x hx
        have : x = defaultPipelineRow now := by simpa using hx
        rw [this]
        rfl
      · rfl
  · intro t now now'
    unfold setupPipelineState
    by_cases hfind : (t.find? (fun r => r.id == 1)).isSome = true
    · rw [if_pos hfind, if_pos hfind]
    · rw [if_neg hfind]
      have hnone : t.find? (fun r => r.id == 1) = none := by
        cases hopt : t.find? (fun r => r.id == 1) with
        | none => rfl
        | some x => rw [hopt] at hfind; simp at hfind
      rw [if_pos ?_]
      rw [find?_append_none _ _ _ hnone]
      simp [List.find?, defaultPipelineRow]

/-- C10 (amended, for the filtered definition in src/unnamed/part_001):
every returned row comes from a creator with an outreach row whose
contact check completed and which carries a contact signal, and the four
contact columns are the stored values coalesced to '' / false, hence
never null. -/
theorem customer_contacts_view_members (db : Db) (row : CustomerContactRow)
    (h : row ∈ customer_contacts_view db) :
    ∃ c ∈ db.creators, ∃ co ∈ db.outreach, co.creator_id = c.id ∧
      row.creator_id = c.id ∧
      co.contact_status = some "completed" ∧
      ((∃ e, co.email = some e ∧ e ≠ "") ∨ co.has_contact_form = some true) ∧
      row.email = co.email.getD "" ∧
      row.email_source_url = co.email_source_url.getD "" ∧
      row.contact_form_url = co.contact_form_url.getD "" ∧
      row.has_contact_form = co.has_contact_form.getD false := by
  unfold customer_contacts_view at h
  obtain ⟨c, hc, heq⟩ := List.mem_filterMap.mp h
  cases hfo : findOutreach db c.id with
  | none =>
    simp only [hfo] at heq
    exact Option.noConfusion heq
  | some co =>
  simp only [hfo] at heq
  cases hvis : contactRowVisible co with
  | false =>
    simp only [hvis, Bool.false_eq_true, if_false] at heq
    exact Option.noConfusion heq
  | true =>
  simp only [hvis, if_true] at heq
  injection heq with heq
  subst heq
  have hmem : co ∈ db.outreach := List.mem_of_find?_eq_some hfo
  have hkey : co.creator_id = c.id := by
    have := List.find?_some hfo
    simpa using this
  have hvis' := hvis
  unfold contactRowVisible at hvis'
  rw [Bool.and_eq_true] at hvis'
  obtain ⟨hst, hsig⟩ := hvis'
  refine ⟨c, hc, co, hmem, hkey, rfl, ?_, ?_, rfl, rfl, rfl, rfl⟩
  · simpa using hst
  · rw [Bool.or_eq_true] at hsig
    rcases hsig with hem | hcf
    · left
      cases he : co.email with
      | none => rw [he] at hem; simp at hem
      | some e =>
        rw [he] at hem
        exact ⟨e, rfl, by simpa using hem⟩
    · right
      cases hf : co.has_contact_form with
      | none => rw [hf] at hcf; simp [Option.getD] at hcf
      | some b =>
        rw [hf] at hcf
        simp only [Option.getD] at hcf
        rw [show b = true from by simpa using hcf]

theorem listUpdate_map_ids (l : List PoolAccount) (p : PoolAccount → Bool)
    (new : PoolAccount) (hp : ∀ x, p x = true → new.id = x.id) :
    (listUpdate p new l).map (fun a => a.id) = l.map (fun a => a.id) := by
  induction l with
  | nil => rfl
  | cons y ys ih =>
    cases hy : p y with
    | true => simp [listUpdate, hy, hp y hy]
    | false => simp [listUpdate, hy, ih]

theorem unique_statusOf : ∀ (s : List PoolAccount),
    ((s.map fun a => a.id).Nodup) → ∀ x ∈ s, poolStatusOf s x.id = some x.status := by
  intro s
  induction s with
  | nil => intro _ x hx; exact absurd hx (List.not_mem_nil x)
  | cons y ys ih =>
    intro hnd x hx
    rcases List.mem_cons.mp hx with rfl | hx'
    · unfold poolStatusOf
      rw [List.find?_cons_of_pos _ (by simp)]
      rfl
    · have hne : (y.id == x.id) = false := by
        simp only [List.map_cons, List.nodup_cons] at hnd
        have : x.id ∈ ys.map (fun a => a.id) := List.mem_map.mpr ⟨x, hx', rfl⟩
        simp only [beq_eq_false_iff_ne, ne_eq]
        intro hcontra
        exact hnd.1 (hcontra ▸ this)
      unfold poolStatusOf
      rw [List.find?_cons_of_neg _ (by simp [hne])]
      exact ih (by simp only [List.map_cons, List.nodup_cons] at hnd; exact hnd.2) x hx'

theorem poolAcquire_props (s : List PoolAccount) (i : Int)
    (hnd : (s.map fun a => a.id).Nodup)
    (hex : poolStatusOf s i = some .exhausted) :
    (poolAcquire s).1 ≠ some i ∧
    (((poolAcquire s).2.map fun a => a.id).Nodup) ∧
    poolStatusOf (poolAcquire s).2 i = some .exhausted := by
  unfold poolAcquire
  cases hfind : s.find? (fun a => a.status == .active) with
  | none => exact ⟨by simp, hnd, hex⟩
  | some a =>
    have hmem : a ∈ s := List.mem_of_find?_eq_some hfind
    have hact : a.status = .active := by
      have := List.find?_some hfind
      simpa using this
    have hne : a.id ≠ i := by
      intro hcontra
      have := unique_statusOf s hnd a hmem
      rw [hcontra, hex] at this
      rw [hact] at this
      exact AccountStatus.noConfusion (Option.some.injEq .. ▸ this)
    refine ⟨by simpa using fun hc => hne hc, ?_, ?_⟩
    · rw [listUpdate_map_ids _ _ _ ?_]
      · exact hnd
      · intro x hx
        simpa using (by simpa using hx : x.id = a.id).symm
    · unfold poolStatusOf
      rw [find?_listUpdate_other _ _ _ _ (by simpa using hne) ?_]
      · exact hex
      · intro x _ hx
        have : x.id = a.id := by simpa using hx
        simp [this, hne]

theorem poolRelease_status (i' : Int) : ∀ (s : List PoolAccount) (i : Int),
    poolStatusOf s i = some .exhausted →
    poolStatusOf (poolRelease i' s) i = some .exhausted := by
  intro s
  induction s with
  | nil => intro i h; exact h
  | cons y ys ih =>
    intro i h
    unfold poolStatusOf at h ⊢
    unfold poolRelease
    simp only [List.map_cons]
    cases hy : (y.id == i) with
    | true =>
      rw [List.find?_cons_of_pos _ (by exact hy)] at h
      have hys : y.status = .exhausted := by
        injection h
      have hgy : (if y.id == i' && y.status == .inUse then
          { y with status := .active } else y) = y := by
        rw [if_neg]
        simp [hys]
      rw [hgy, List.find?_cons_of_pos _ (by exact hy)]
      exact h
    | false =>
      rw [List.find?_cons_of_neg _ (by simp [hy])] at h
      have hid : (if y.id == i' && y.status == .inUse then
          { y with status := .active } else y).id = y.id := by
        by_cases hc : (y.id == i' && y.status == .inUse) = true
        · rw [if_pos hc]
        · rw [if_neg hc]
      rw [List.find?_cons_of_neg _ ?hne]
      · exact ih i h
      case hne =>
        show ¬((if y.id == i' && y.status == .inUse then
          { y with status := .active } else y).id == i) = true
        rw [hid]
        simp [hy]

theorem poolRelease_ids (i' : Int) : ∀ (s : List PoolAccount),
    ((poolRelease i' s).map fun a => a.id) = s.map fun a => a.id := by
  intro s
  induction s with
  | nil => rfl
  | cons y ys ih =>
    unfold poolRelease at ih ⊢
    simp only [List.map_cons, List.map_cons]
    rw [ih]
    by_cases hc : (y.id == i' && y.status == .inUse) = true
    · rw [if_pos hc]
    · rw [if_neg hc]

theorem poolReportExhausted_status (i' : Int) : ∀ (s : List PoolAccount) (i : Int),
    poolStatusOf s i = some .exhausted →
    poolStatusOf (poolReportExhausted i' s) i = some .exhausted := by
  intro s
  induction s with
  | nil => intro i h; exact h
  | cons y ys ih =>
    intro i h
    unfold poolStatusOf at h ⊢
    unfold poolReportExhausted
    simp only [List.map_cons]
    cases hy : (y.id == i) with
    | true =>
      rw [List.find?_cons_of_pos _ (by exact hy)] at h
      have hys : y.status = .exhausted := by
        injection h
      by_cases hc : (y.id == i') = true
      · rw [if_pos hc, List.find?_cons_of_pos _ (by exact hy)]
        rfl
      · rw [if_neg hc, List.find?_cons_of_pos _ (by exact hy)]
        exact h
    | false =>
      rw [List.find?_cons_of_neg _ (by simp [hy])] at h
      have hid : (if y.id == i' then { y with status := .exhausted } else y).id = y.id := by
        by_cases hc : (y.id == i') = true
        · rw [if_pos hc]
        · rw [if_neg hc]
      rw [List.find?_cons_of_neg _ ?hne]
      · exact ih i h
      case hne =>
        show ¬((if y.id == i' then { y with status := .exhausted } else y).id == i) = true
        rw [hid]
        simp [hy]

theorem poolReportExhausted_ids (i' : Int) : ∀ (s : List PoolAccount),
    ((poolReportExhausted i' s).map fun a => a.id) = s.map fun a => a.id := by
  intro s
  induction s with
  | nil => rfl
  | cons y ys ih =>
    unfold poolReportExhausted at ih ⊢
    simp only [List.map_cons, List.map_cons]
    rw [ih]
    by_cases hc : (y.id == i') = true
    · rw [if_pos hc]
    · rw [if_neg hc]

theorem acquire_none_of_no_active (s : List PoolAccount)
    (h : (s.filter (fun a => a.status == .active)).length = 0) :
    (poolAcquire s).1 = none := by
  unfold poolAcquire
  cases hf : s.find? (fun a => a.status == .active) with
  | none => rfl
  | some a =>
    exfalso
    have hmem : a ∈ s := List.mem_of_find?_eq_some hf
    have hact := List.find?_some hf
    have : a ∈ s.filter (fun a => a.status == .active) := List.mem_filter.mpr ⟨hmem, hact⟩
    rw [List.length_eq_zero] at h
    rw [h] at this
    exact absurd this (List.not_mem_nil a)

theorem acquire_single_active : ∀ (s : List PoolAccount),
    ((s.map fun a => a.id).Nodup) →
    (s.filter (fun a => a.status == .active)).length = 1 →
    (poolAcquire s).1.isSome ∧
    (((poolAcquire s).2.filter (fun a => a.status == .active)).length = 0) := by
  intro s
  induction s with
  | nil => intro _ h; simp [List.filter] at h
  | cons y ys ih =>
    intro hnd hone
    have hnd' : ((ys.map fun a => a.id).Nodup) := by
      simp only [List.map_cons, List.nodup_cons] at hnd
      exact hnd.2
    cases hy : (y.status == AccountStatus.active) with
    | true =>
      have hys0 : (ys.filter (fun a => a.status == .active)).length = 0 := by
        rw [List.filter_cons_of_pos (by exact hy)] at hone
        simpa using hone
      have hfind : (y :: ys).find? (fun a => a.status == .active) = some y :=
        List.find?_cons_of_pos _ (by exact hy)
      unfold poolAcquire
      rw [hfind]
      dsimp only
      refine ⟨by simp, ?_⟩
      have hupd : listUpdate (fun b => b.id == y.id) { y with status := .inUse } (y :: ys) =
          { y with status := .inUse } :: ys := by
        unfold listUpdate
        rw [if_pos (by simp)]
      rw [hupd]
      rw [List.filter_cons_of_neg (by simp)]
      exact hys0
    | false =>
      have hys1 : (ys.filter (fun a => a.status == .active)).length = 1 := by
        rw [List.filter_cons_of_neg (by simp [hy])] at hone
        exact hone
      obtain ⟨ihs, ihf⟩ := ih hnd' hys1
      cases hf : ys.find? (fun a => a.status == .active) with
      | none =>
        exfalso
        unfold poolAcquire at ihs
        simp only [hf] at ihs
        exact Bool.noConfusion ihs
      | some a =>
        have hamem : a ∈ ys := List.mem_of_find?_eq_some hf
        have hyne : (y.id == a.id) = false := by
          simp only [List.map_cons, List.nodup_cons] at hnd
          have : a.id ∈ ys.map (fun b => b.id) := List.mem_map.mpr ⟨a, hamem, rfl⟩
          simp only [beq_eq_false_iff_ne, ne_eq]
          intro hcontra
          exact hnd.1 (hcontra ▸ this)
        have hfind : (y :: ys).find? (fun a => a.status == .active) = some a := by
          rw [List.find?_cons_of_neg _ (by simp [hy]), hf]
        unfold poolAcquire
        rw [hfind]
        dsimp only
        refine ⟨by simp, ?_⟩
        have hupd : listUpdate (fun b => b.id == a.id) { a with status := .inUse } (y :: ys) =
            y :: listUpdate (fun b => b.id == a.id) { a with status := .inUse } ys := by
          simp only [listUpdate]
          rw [if_neg (by simp [hyne])]
        rw [hupd]
        rw [List.filter_cons_of_neg (by simp [hy])]
        unfold poolAcquire at ihf
        simp only [hf] at ihf
        exact ihf

/-- C9 (spec-modelled): against a pool holding exactly one active
credential, two acquire() calls can never both succeed without an
intervening release; and an exhausted credential is never handed out
again, nor reactivated, by any interleaving of pool operations. -/
theorem credential_pool_isolation :
    (∀ (s : List PoolAccount),
      ((s.map fun a => a.id).Nodup) →
      (s.filter (fun a => a.status == .active)).length = 1 →
      (poolAcquire s).1.isSome ∧ (poolAcquire (poolAcquire s).2).1 = none) ∧
    (∀ (ops : List PoolOp) (s : List PoolAccount) (i : Int),
      ((s.map fun a => a.id).Nodup) →
      poolStatusOf s i = some .exhausted →
      i ∉ (poolRun ops s).1 ∧
      poolStatusOf (poolRun ops s).2 i = some .exhausted) := by
  constructor
  · intro s hnd hone
    obtain ⟨h1, h2⟩ := acquire_single_active s hnd hone
    exact ⟨h1, acquire_none_of_no_active _ h2⟩
  · intro ops
    induction ops with
    | nil =>
      intro s i _ hex
      exact ⟨List.not_mem_nil i, hex⟩
    | cons op rest ih =>
      intro s i hnd hex
      cases op with
      | acquire =>
        obtain ⟨hne, hnd', hex'⟩ := poolAcquire_props s i hnd hex
        obtain ⟨hnotin, hexF⟩ := ih (poolAcquire s).2 i hnd' hex'
        constructor
        · show i ∉ (poolRun (PoolOp.acquire :: rest) s).1
          unfold poolRun
          cases hr : (poolAcquire s).1 with
          | none => simpa using hnotin
          | some a =>
            have hai : a ≠ i := by
              intro hcontra
              exact hne (hcontra ▸ hr)
            simp only [List.mem_cons, not_or]
            exact ⟨fun hcontra => hai hcontra.symm, hnotin⟩
        · show poolStatusOf (poolRun (PoolOp.acquire :: rest) s).2 i = some .exhausted
          unfold poolRun
          exact hexF
      | release i' =>
        have hnd' : (((poolRelease i' s).map fun a => a.id).Nodup) := by
          rw [poolRelease_ids]
          exact hnd
        exact ih (poolRelease i' s) i hnd' (poolRelease_status i' s i hex)
      | reportExhausted i' =>
        have hnd' : (((poolReportExhausted i' s).map fun a => a.id).Nodup) := by
          rw [poolReportExhausted_ids]
          exact hnd
        exact ih (poolReportExhausted i' s) i hnd' (poolReportExhausted_status i' s i hex)

/-! ## Witnesses and counterexamples at the concrete fixtures -/

/-- Witness for C1 at exDb: the manual status and notes survive a sync. -/
theorem sync_preserves_manual_outreach_witness :
    ∃ r', findOutreach (sync_creator_outreach_bulk "t1" exDb [exSyncPayload]).1 7 = some r' ∧
      r'.outreach_status = exOutreachManual.outreach_status ∧
      r'.notes = exOutreachManual.notes :=
  sync_preserves_manual_outreach.1 "t1" exDb [exSyncPayload] 7 exOutreachManual rfl (by decide)

/-- Witness for C2: the email-only payload merged into exDb. -/
theorem sync_merge_field_semantics_witness :
    ∃ r', findOutreach exDbAfter 7 = some r' ∧
      r'.email = coalesce (jGetText exSyncPayload "email") exOutreachManual.email ∧
      r'.email_source_url = coalesce (jGetText exSyncPayload "email_source_url") exOutreachManual.email_source_url ∧
      r'.contact_form_url = coalesce (jGetText exSyncPayload "contact_form_url") exOutreachManual.contact_form_url ∧
      r'.contact_error = coalesce (jGetText exSyncPayload "contact_error") exOutreachManual.contact_error ∧
      r'.site_hash = coalesce (jGetText exSyncPayload "site_hash") exOutreachManual.site_hash ∧
      r'.last_contact_check_at = coalesce (nullifEmpty (jGetText exSyncPayload "last_contact_check_at")) exOutreachManual.last_contact_check_at ∧
      (jGetText exSyncPayload "has_contact_form" = none → r'.has_contact_form = some false) ∧
      (jGetText exSyncPayload "contact_status" = none → r'.contact_status = some "not_checked") ∧
      (jGetText exSyncPayload "contact_attempts" = none → r'.contact_attempts = some 0) :=
  sync_merge_field_semantics "t1" exDb exSyncPayload exDbAfter WriteKind.updated 7
    exOutreachManual rfl rfl rfl

/-- Counterexample to the spec wording of C2: the stored row carried
has_contact_form true, contact_status completed and 2 attempts; a payload
with none of those fields resets them to false, not_checked and 0, while
the url column is preserved by its coalesce. -/
theorem sync_merge_counterexample :
    exOutreachManual.has_contact_form = some true ∧
    exOutreachManual.contact_status = some "completed" ∧
    exOutreachManual.contact_attempts = some 2 ∧
    (findOutreach (sync_creator_outreach_bulk "t1" exDb [exSyncPayload]).1 7).map
      (fun r => (r.has_contact_form, r.contact_status, r.contact_attempts, r.contact_form_url)) =
      some (some false, some "not_checked", some 0, some "https://x.com/contact") :=
  ⟨rfl, rfl, rfl, rfl⟩

/-- Witness for C3 at hash-matched snapshots and a fresh replayed batch. -/
theorem hash_guard_idempotence_witness :
    (upsert_creators_bulk "t1" exHashDb [exCreatorPayloadH] = (exHashDb, ⟨0, 0, 1, []⟩)) ∧
    (upsert_projects_bulk "t1" exProjDb [exProjectPayloadH] = (exProjDb, ⟨0, 0, 1, []⟩)) ∧
    ((upsert_creators_bulk "t2" (upsert_creators_bulk "t1" emptyDb [exCreatorPayloadH]).1 [exCreatorPayloadH]).1 =
        (upsert_creators_bulk "t1" emptyDb [exCreatorPayloadH]).1 ∧
      (upsert_creators_bulk "t2" (upsert_creators_bulk "t1" emptyDb [exCreatorPayloadH]).1 [exCreatorPayloadH]).2.inserted_count = 0 ∧
      (upsert_creators_bulk "t2" (upsert_creators_bulk "t1" emptyDb [exCreatorPayloadH]).1 [exCreatorPayloadH]).2.updated_count = 0) ∧
    ((upsert_projects_bulk "t2" (upsert_projects_bulk "t1" exCreatorDb [exProjectPayloadFull]).1 [exProjectPayloadFull]).1 =
        (upsert_projects_bulk "t1" exCreatorDb [exProjectPayloadFull]).1 ∧
      (upsert_projects_bulk "t2" (upsert_projects_bulk "t1" exCreatorDb [exProjectPayloadFull]).1 [exProjectPayloadFull]).2.inserted_count = 0 ∧
      (upsert_projects_bulk "t2" (upsert_projects_bulk "t1" exCreatorDb [exProjectPayloadFull]).1 [exProjectPayloadFull]).2.updated_count = 0) :=
  ⟨hash_guard_idempotence.1 "t1" exHashDb exCreatorPayloadH 10 (exCreatorRow 10 (some "h")) "h"
      rfl rfl rfl rfl,
   hash_guard_idempotence.2.1 "t1" exProjDb exProjectPayloadH 20 exProjectRow "h"
      rfl rfl rfl rfl,
   hash_guard_idempotence.2.2.1 "t1" "t2" emptyDb [exCreatorPayloadH] (by decide) (by decide),
   hash_guard_idempotence.2.2.2 "t1" "t2" exCreatorDb [exProjectPayloadFull] (by decide) (by decide)⟩

/-- Counterexample to the spec wording of C3: a snapshot without a
data_hash is rewritten on every run; the replay reports one update and
refreshes updated_at, so the state is not unchanged. -/
theorem hash_guard_counterexample :
    (upsert_creators_bulk "t2" (upsert_creators_bulk "t1" emptyDb [exNoHashPayload]).1 [exNoHashPayload]).2 =
      ⟨0, 1, 1, []⟩ ∧
    (findCreator (upsert_creators_bulk "t2" (upsert_creators_bulk "t1" emptyDb [exNoHashPayload]).1 [exNoHashPayload]).1 10).map
      (fun r => r.updated_at) = some "t2" ∧
    (findCreator (upsert_creators_bulk "t1" emptyDb [exNoHashPayload]).1 10).map
      (fun r => r.updated_at) = some "t1" :=
  ⟨rfl, rfl, rfl⟩

/-- Witness for C4: the stored generated column of the merged row. -/
theorem sync_hasAnyContact_invariant_witness :
    exMergedRow.has_any_contact = hasAnyContactOf exMergedRow.email exMergedRow.has_contact_form :=
  sync_hasAnyContact_invariant "t1" exDb [exSyncPayload] (by decide) exMergedRow (by decide)

/-- Counterexample to the spec wording of C4: an empty-string email still
drives the stored column to true, although the email is not non-empty and
no contact form was found. -/
theorem sync_hasAnyContact_counterexample :
    (findOutreach (sync_creator_outreach_bulk "t1" exDb9 [exEmptyEmailPayload]).1 9).map
      (fun r => (r.email, r.has_contact_form, r.has_any_contact)) =
      some (some "", some false, true) :=
  rfl

/-- Witness for C5: a malformed payload in the middle of a creator batch. -/
theorem bulk_entity_failure_isolated_witness :
    (upsert_creators_bulk "t1" exDb ([] ++ exBadPayload :: [exCreatorPayloadH])).1 =
      (upsert_creators_bulk "t1" exDb ([] ++ [exCreatorPayloadH])).1 ∧
    exErrEntry ∈ (upsert_creators_bulk "t1" exDb ([] ++ exBadPayload :: [exCreatorPayloadH])).2.errors :=
  bulk_entity_failure_isolated.1 "t1" exDb [] exBadPayload [exCreatorPayloadH] exErrEntry rfl

/-- Witness for C6: the returned counts of a mixed batch, and the shape
of a reported error entry. -/
theorem bulk_result_reporting_witness :
    (upsert_creators_bulk "t1" exHashDb exBatch4).2.total_count = exBatch4.length ∧
    (upsert_creators_bulk "t1" exHashDb exBatch4).2.inserted_count +
      (upsert_creators_bulk "t1" exHashDb exBatch4).2.updated_count +
      countSkipped (stepCreator "t1") exHashDb exBatch4 +
      (upsert_creators_bulk "t1" exHashDb exBatch4).2.errors.length = exBatch4.length ∧
    (exErrEntry.idKey = "creator_id" ∧ ∃ j ∈ exBatchBad, exErrEntry.entityId = jGetText j "id") :=
  ⟨(bulk_result_reporting.1 "t1" exHashDb exBatch4).1,
   (bulk_result_reporting.1 "t1" exHashDb exBatch4).2.1,
   (bulk_result_reporting.1 "t1" exDb exBatchBad).2.2 exErrEntry (by decide)⟩

/-- Counterexample to the spec wording of C6: three of the four entities
are hash-skipped, yet the returned record carries no field equal to that
unchanged count (its fields are 1, 0, 4 and an empty error list). -/
theorem bulk_result_counterexample :
    (upsert_creators_bulk "t1" exHashDb exBatch4).2 = ⟨1, 0, 4, []⟩ ∧
    countSkipped (stepCreator "t1") exHashDb exBatch4 = 3 :=
  ⟨rfl, rfl⟩

/-- Witness for C7: the skip, membership and merge clauses at concrete
tables. -/
theorem firecrawl_block_domain_witness :
    firecrawl_block_domain [] (some "   ") (some "r") (some "s") none "t1" = [] ∧
    (exFreshBlockRow ∈ ([] : List BlockedDomainRow) ∨ exFreshBlockRow.domain = lowerStr "Foo.COM") ∧
    firecrawl_block_domain [exBlockedRow] (some "X.com") (some "r") none (some "n") "t1" =
      listUpdate (fun row => row.domain == lowerStr "X.com")
        (blockedMergeRow exBlockedRow (some "r") none (some "n") "t1") [exBlockedRow] :=
  ⟨firecrawl_block_domain_spec.2.1 [] "   " (some "r") (some "s") none "t1" rfl,
   firecrawl_block_domain_spec.2.2.2.1 [] "Foo.COM" (some "r") (some "s") none "t1"
     exFreshBlockRow (by decide),
   firecrawl_block_domain_spec.2.2.2.2.2 [exBlockedRow] "X.com" (some "r") none (some "n") "t1"
     exBlockedRow rfl (by decide)⟩

/-- Witness for C8: setup into the empty table, once and replayed. -/
theorem pipeline_state_singleton_witness :
    ((defaultPipelineRow "t1").id = 1 ∧ ([] : List PipelineStateRow) = [] ∧
      [defaultPipelineRow "t1"] = [defaultPipelineRow "t1"]) ∧
    (setupPipelineState [] "t1").length = max ([] : List PipelineStateRow).length 1 :=
  ⟨pipeline_state_singleton.1 [] (defaultPipelineRow "t1") [defaultPipelineRow "t1"]
      (by simp) rfl,
   (pipeline_state_singleton.2.1 [] "t1" (by simp)).2⟩

/-- Witness for C9: the one-active pool and an interleaving that tries to
reacquire an exhausted credential. -/
theorem credential_pool_isolation_witness :
    ((poolAcquire exPool1).1.isSome ∧ (poolAcquire (poolAcquire exPool1).2).1 = none) ∧
    ((2 : Int) ∉ (poolRun exPoolOps exPool2).1 ∧
      poolStatusOf (poolRun exPoolOps exPool2).2 2 = some AccountStatus.exhausted) :=
  ⟨credential_pool_isolation.1 exPool1 (by decide) rfl,
   credential_pool_isolation.2 exPoolOps exPool2 2 (by decide) rfl⟩

/-- Witness for C10 at exViewDb: the returned row and its source rows. -/
theorem customer_contacts_view_members_witness :
    ∃ c ∈ exViewDb.creators, ∃ co ∈ exViewDb.outreach, co.creator_id = c.id ∧
      exContactRow.creator_id = c.id ∧
      co.contact_status = some "completed" ∧
      ((∃ e, co.email = some e ∧ e ≠ "") ∨ co.has_contact_form = some true) ∧
      exContactRow.email = co.email.getD "" ∧
      exContactRow.email_source_url = co.email_source_url.getD "" ∧
      exContactRow.contact_form_url = co.contact_form_url.getD "" ∧
      exContactRow.has_contact_form = co.has_contact_form.getD false :=
  customer_contacts_view_members exViewDb exContactRow (by decide)

/-- Counterexample for C10 against the unfiltered definition in
src/supabase/views: a creator with no outreach row at all is still
returned there (with blank contact columns), while the filtered
definition returns nothing. -/
theorem customer_contacts_counterexample :
    customer_contacts_view exNoContactDb = [] ∧
    customer_contacts_view_unfiltered exNoContactDb =
      [contactProjection (exCreatorRow 7 none) none] ∧
    (contactProjection (exCreatorRow 7 none) none).email = "" :=
  ⟨rfl, rfl, rfl⟩

end Kickstarter





